import Mathlib

/-!
# ring-buff: a shallow embedding of `trunk/src/ring_buff.c`

Conventions of the embedding.

* Pointers into the caller's storage (`read`, `write`, `acc`, `eod`, the regions
  handed out) are byte offsets relative to `obj->buff`, kept in `Int`. The subtraction
  `obj->read - size` of the wrap loop is then the integer subtraction; the source
  makes it on the address, where it wraps below address 0, and
  `ring_buff_reserve_at` is the function with its comparisons on addresses.
  A `NULL` pointer is `none`.
* `uint32_t` values are `Nat`; the two places where the C arithmetic can leave the
  range (`acc_size += size`, the `uint32_t` subtractions) reduce modulo `2^32`.
* The mutex makes every function body atomic between two semaphore waits, so a
  blocking function is a pair: the call up to its first `ring_buff_binary_sem_take`
  (result `wait`), and the resumption after that take returns (`*_wake`).
* The notify callback is caller code: it is a parameter of `ring_buff_commit` and
  `ring_buff_flush`, and the object only records whether the pointer is set.
-/

namespace RingBuff

/-- Error types of `ring_buff.h` (`ring_buff_err_t`), in declaration order. -/
inductive ring_buff_err
  | RING_BUFF_ERR_OK
  | RING_BUFF_ERR_GENERAL
  | RING_BUFF_ERR_NO_MEM
  | RING_BUFF_ERR_OVERRUN
  | RING_BUFF_ERR_SIZE
  | RING_BUFF_ERR_INTERNAL
  | RING_BUFF_ERR_PERM
  deriving DecidableEq, Repr

/-- Buffer states (`ring_buff_state_t`). -/
inductive ring_buff_state
  | RING_BUFF_STATE_ACTIVE
  | RING_BUFF_STATE_CANCELED
  | RING_BUFF_STATE_STOPPED
  deriving DecidableEq, Repr

open ring_buff_err ring_buff_state

/-- Enumerator values: the states are defined so that bitwise or is possible. -/
def ring_buff_state.val : ring_buff_state → Nat
  | RING_BUFF_STATE_ACTIVE => 1
  | RING_BUFF_STATE_CANCELED => 2
  | RING_BUFF_STATE_STOPPED => 4

/-- Number of values of a `uint32_t`. -/
def UINT32_MOD : Nat := 4294967296

/-- Subtraction of two `uint32_t` values, as C computes it. -/
def u32_sub (a b : Nat) : Nat := (a + UINT32_MOD - b % UINT32_MOD) % UINT32_MOD

/-- Addition of two `uint32_t` values, as C computes it. -/
def u32_add (a b : Nat) : Nat := (a + b) % UINT32_MOD

/-- Conversion of a pointer difference to `uint32_t`. -/
def u32_of_diff (d : Int) : Nat := (d % (UINT32_MOD : Int)).toNat

/-- The bookkeeping object `ring_buff_obj_t`. The storage itself is caller memory and
is not part of the object; `lock` is implicit in the atomicity of the functions. -/
structure ring_buff_obj where
  /-- Buffer size -/
  size : Nat
  /-- Accumulate window size -/
  accumulate : Nat
  /-- Whether the notify callback pointer is non-NULL -/
  notify_func : Bool
  /-- Read pointer (available data start) -/
  read : Int
  /-- Write pointer (free memory start) -/
  write : Int
  /-- Accumulation window pointer -/
  acc : Int
  /-- End of Data pointer, `none` for NULL -/
  eod : Option Int
  /-- Continuous data available -/
  acc_size : Nat
  /-- State -/
  state : ring_buff_state
  /-- Flag of the read semaphore: `true` is up -/
  read_sem : Bool
  /-- Flag of the write semaphore: `true` is up -/
  write_sem : Bool
  deriving DecidableEq, Repr

/-- Attributes `ring_buff_attr_t`; `buff` records whether the storage pointer is
non-NULL, `notify_func` whether a callback is given. -/
structure ring_buff_attr where
  buff : Bool
  size : Nat
  accumulate : Nat
  notify_func : Bool
  deriving DecidableEq, Repr

/-- The caller's notify callback: it is given the handle (the object), the window
start and the window size, may operate on the object, and returns an error code. -/
abbrev ring_buff_notify_t := ring_buff_obj → Int → Nat → ring_buff_err × ring_buff_obj

/-- Function `ring_buff_binary_sem_take` on a flag: returns the cleared flag when the
semaphore is up, and `none` when the caller stays blocked. -/
def ring_buff_binary_sem_take (flag : Bool) : Option Bool :=
  if flag then some false else none

/-- Function `ring_buff_binary_sem_give`: the flag is up afterwards. -/
def ring_buff_binary_sem_give (_flag : Bool) : Bool := true

/-- Function `ring_buff_create`; `malloc_ok` and `mutex_ok` say whether the allocation of
the object and the creation of the mutex succeed, `attr = none` is a NULL attribute. -/
def ring_buff_create (malloc_ok mutex_ok : Bool) (attr : Option ring_buff_attr) :
    ring_buff_err × Option ring_buff_obj :=
  match attr with
  | none => (RING_BUFF_ERR_GENERAL, none)
  | some attr =>
    if attr.size = 0 ∨ attr.buff = false then (RING_BUFF_ERR_GENERAL, none)
    else if malloc_ok = false then (RING_BUFF_ERR_NO_MEM, none)
    else if mutex_ok = false then (RING_BUFF_ERR_GENERAL, none)
    else
      (RING_BUFF_ERR_OK, some
        { size := attr.size
          accumulate := if attr.accumulate > attr.size / 2 then 0 else attr.accumulate
          notify_func := attr.notify_func
          read := 0
          write := 0
          acc := 0
          eod := none
          acc_size := 0
          state := RING_BUFF_STATE_ACTIVE
          read_sem := true
          write_sem := true })

/-- Function `ring_buff_check_state`: `states` is a bitwise or of state values. -/
def ring_buff_check_state (obj : ring_buff_obj) (states : Nat) : ring_buff_err :=
  if obj.state.val &&& states = 0 then RING_BUFF_ERR_PERM else RING_BUFF_ERR_OK

/-- The two wait loops of `ring_buff_reserve`. -/
inductive reserve_loop
  | direct
  | wrap
  deriving DecidableEq, Repr

/-- Outcome of `ring_buff_reserve`: it returned (`buff` is the region start written
to `*buff`, `none` when nothing was written), or it is at a
`ring_buff_binary_sem_take(obj->write_sem)` of the given loop with the lock released. -/
inductive reserve_result
  | ret (err : ring_buff_err) (buff : Option Int) (obj : ring_buff_obj)
  | wait (loop : reserve_loop) (obj : ring_buff_obj)
  deriving DecidableEq, Repr

/-- Loop of the branch "there is enough space left till the end of buffer",
from the evaluation of its condition on. -/
def ring_buff_reserve_direct (obj : ring_buff_obj) (size : Nat) : reserve_result :=
  if obj.write < obj.read ∧ obj.write + (size : Int) ≥ obj.read then
    .wait .direct obj
  else
    .ret RING_BUFF_ERR_OK (some obj.write) { obj with write := obj.write + (size : Int) }

/-- Loop of the branch "wrap around", from the evaluation of its condition on, on
offsets: `obj->read - size` is the integer difference, which is what the source
computes when that address is not below address 0 (a storage at an address of at
least `size` minus the read offset); `ring_buff_reserve_wrap_at` has the loop on
addresses. -/
def ring_buff_reserve_wrap (obj : ring_buff_obj) (size : Nat) : reserve_result :=
  if obj.read - (size : Int) < 0 ∨ obj.read > obj.write then
    .wait .wrap obj
  else
    .ret RING_BUFF_ERR_OK (some 0)
      { obj with eod := some obj.write, write := (0 : Int) + (size : Int) }

/-- Function `ring_buff_reserve`, from the call to its return or its first wait. -/
def ring_buff_reserve (obj : ring_buff_obj) (size : Nat) : reserve_result :=
  if size > obj.size then .ret RING_BUFF_ERR_SIZE none obj
  else if ring_buff_check_state obj RING_BUFF_STATE_ACTIVE.val ≠ RING_BUFF_ERR_OK then
    .ret RING_BUFF_ERR_PERM none obj
  else if obj.write + (size : Int) ≤ (0 : Int) + (obj.size : Int) then
    ring_buff_reserve_direct obj size
  else
    ring_buff_reserve_wrap obj size

/-- Resumption of a `ring_buff_reserve` blocked in `loop`, on the object as it is when
the take on `write_sem` returns: the state is re-checked, then the loop condition. -/
def ring_buff_reserve_wake (loop : reserve_loop) (obj : ring_buff_obj) (size : Nat) :
    reserve_result :=
  match ring_buff_binary_sem_take obj.write_sem with
  | none => .wait loop obj
  | some flag =>
    let obj := { obj with write_sem := flag }
    if ring_buff_check_state obj RING_BUFF_STATE_ACTIVE.val ≠ RING_BUFF_ERR_OK then
      .ret RING_BUFF_ERR_PERM none obj
    else
      match loop with
      | .direct => ring_buff_reserve_direct obj size
      | .wrap => ring_buff_reserve_wrap obj size

/-- Outcome of a function that may invoke the notify callback: the returned code,
the object afterwards, and the window `(buff, size)` passed to the callback, if it
was invoked. -/
structure notify_result where
  err : ring_buff_err
  obj : ring_buff_obj
  window : Option (Int × Nat)
  deriving DecidableEq, Repr

/-- Function `ring_buff_handle_acc`. The pointer `obj->acc` is inside the storage, hence
non-NULL, so `if(buff)` holds exactly when one of the two branches assigned it. -/
def ring_buff_handle_acc (notify : ring_buff_notify_t) (obj : ring_buff_obj)
    (added_size : Nat) : notify_result :=
  if obj.acc + (obj.acc_size : Int) > (0 : Int) + (obj.size : Int) then
    let size := u32_sub obj.acc_size added_size
    let buff := obj.acc
    let obj := { obj with acc_size := added_size, acc := 0 }
    let r := notify obj buff size
    { err := r.1, obj := r.2, window := some (buff, size) }
  else if obj.acc_size ≥ obj.accumulate then
    let size := u32_sub obj.acc_size added_size
    let buff := obj.acc
    let obj := { obj with acc_size := added_size, acc := obj.acc + (size : Int) }
    let r := notify obj buff size
    { err := r.1, obj := r.2, window := some (buff, size) }
  else
    { err := RING_BUFF_ERR_OK, obj := obj, window := none }

/-- Function `ring_buff_commit`; the `buff` argument is accepted and not used. -/
def ring_buff_commit (notify : ring_buff_notify_t) (obj : ring_buff_obj) (_buff : Int)
    (size : Nat) : notify_result :=
  let obj := { obj with acc_size := u32_add obj.acc_size size }
  if obj.acc_size > obj.size then
    { err := RING_BUFF_ERR_GENERAL, obj := obj, window := none }
  else if obj.accumulate ≠ 0 ∧ obj.notify_func = true then
    ring_buff_handle_acc notify obj size
  else
    { err := RING_BUFF_ERR_OK
      obj := { obj with read_sem := ring_buff_binary_sem_give obj.read_sem }
      window := none }

/-- Function `ring_buff_free` on a non-NULL handle. -/
def ring_buff_free (obj : ring_buff_obj) (buff : Int) (size : Nat) :
    ring_buff_err × ring_buff_obj :=
  (RING_BUFF_ERR_OK,
    { obj with read := buff + (size : Int)
               write_sem := ring_buff_binary_sem_give obj.write_sem })

/-- Outcome of `ring_buff_read`: it returned (`buff` and `read` are the values written
to `*buff` and `*read`, `none` when nothing was written), or it is at the
`ring_buff_binary_sem_take(obj->read_sem)` with the lock released. -/
inductive read_result
  | ret (err : ring_buff_err) (buff : Option Int) (read : Option Nat) (obj : ring_buff_obj)
  | wait (obj : ring_buff_obj)
  deriving DecidableEq, Repr

/-- The `else` part of the body of `ring_buff_read`: no wrap is pending at this read. -/
def ring_buff_read_plain (obj : ring_buff_obj) (size : Nat) : read_result :=
  let short : Bool := obj.state = RING_BUFF_STATE_STOPPED ∧ size > obj.acc_size
  let err := if short then RING_BUFF_ERR_PERM else RING_BUFF_ERR_OK
  let size := if short then obj.acc_size else size
  .ret err (some obj.acc) (some size)
    { obj with acc_size := u32_sub obj.acc_size size
               acc := obj.acc + (size : Int) }

/-- Body of `ring_buff_read` after its wait loop. -/
def ring_buff_read_serve (obj : ring_buff_obj) (size : Nat) : read_result :=
  match obj.eod with
  | some eod =>
    if obj.acc + (size : Int) > eod then
      let read := u32_of_diff (eod - obj.acc)
      if read = 0 then
        .ret RING_BUFF_ERR_OK (some 0) (some size)
          { obj with acc := (0 : Int) + (size : Int)
                     acc_size := u32_sub obj.acc_size size
                     eod := none }
      else
        .ret RING_BUFF_ERR_OK (some obj.acc) (some read)
          { obj with acc := 0
                     acc_size := u32_sub obj.acc_size read
                     eod := none }
    else ring_buff_read_plain obj size
  | none => ring_buff_read_plain obj size

/-- Wait loop of `ring_buff_read`, from the evaluation of its condition on. -/
def ring_buff_read_loop (obj : ring_buff_obj) (size : Nat) : read_result :=
  if size > obj.acc_size ∧ obj.state ≠ RING_BUFF_STATE_STOPPED then .wait obj
  else ring_buff_read_serve obj size

/-- Function `ring_buff_read` with non-NULL `handle`, `buff` and `read`, from the call to
its return or its first wait. -/
def ring_buff_read (obj : ring_buff_obj) (size : Nat) : read_result :=
  if size > obj.size then .ret RING_BUFF_ERR_GENERAL none none obj
  else ring_buff_read_loop obj size

/-- Resumption of a blocked `ring_buff_read`, on the object as it is when the take on
`read_sem` returns. -/
def ring_buff_read_wake (obj : ring_buff_obj) (size : Nat) : read_result :=
  match ring_buff_binary_sem_take obj.read_sem with
  | none => .wait obj
  | some flag =>
    let obj := { obj with read_sem := flag }
    if ring_buff_check_state obj
        (RING_BUFF_STATE_ACTIVE.val ||| RING_BUFF_STATE_STOPPED.val) ≠ RING_BUFF_ERR_OK then
      .ret RING_BUFF_ERR_PERM none none obj
    else
      ring_buff_read_loop obj size

/-- Function `ring_buff_flush`. -/
def ring_buff_flush (notify : ring_buff_notify_t) (obj : ring_buff_obj) : notify_result :=
  if obj.accumulate = 0 ∧ obj.notify_func = false then
    { err := RING_BUFF_ERR_GENERAL, obj := obj, window := none }
  else if obj.acc_size ≠ 0 ∧ obj.accumulate ≠ 0 ∧ obj.notify_func = true then
    let r := notify obj obj.acc obj.acc_size
    { err := r.1, obj := r.2, window := some (obj.acc, obj.acc_size) }
  else
    { err := RING_BUFF_ERR_OK, obj := obj, window := none }

/-- Function `ring_buff_cancel` on a non-NULL handle. -/
def ring_buff_cancel (obj : ring_buff_obj) : ring_buff_err × ring_buff_obj :=
  (RING_BUFF_ERR_OK,
    { obj with state := RING_BUFF_STATE_CANCELED
               read_sem := ring_buff_binary_sem_give obj.read_sem
               write_sem := ring_buff_binary_sem_give obj.write_sem })

/-- Function `ring_buff_stop` on a non-NULL handle. -/
def ring_buff_stop (obj : ring_buff_obj) : ring_buff_err × ring_buff_obj :=
  (RING_BUFF_ERR_OK, { obj with state := RING_BUFF_STATE_STOPPED })

/-! ## Clients following the FIFO discipline

The engine does not check the order of commits and frees; the discipline is the
caller's. The definitions below are such callers, with the bookkeeping that the
properties of whole runs speak of: which regions are reserved, committed, read,
delivered. -/

/-- A region of the storage: start offset and length in bytes. -/
abbrev region := Int × Nat

/-- Two regions share no byte. -/
def region_disjoint (a b : region) : Bool :=
  decide (a.2 = 0 ∨ b.2 = 0 ∨ a.1 + (a.2 : Int) ≤ b.1 ∨ b.1 + (b.2 : Int) ≤ a.1)

/-- The offsets of the bytes of a region, in increasing order. -/
def region_offsets (r : region) : List Int :=
  (List.range r.2).map (fun i => r.1 + (i : Int))

/-- The bytes of the storage `mem` found in a region. -/
def region_load (mem : Int → Nat) (r : region) : List Nat :=
  (region_offsets r).map mem

/-- The storage after the writer has filled the region starting at `p` with `data`. -/
def region_store (mem : Int → Nat) (p : Int) (data : List Nat) : Int → Nat :=
  fun i => if p ≤ i ∧ i < p + (data.length : Int) then data.getD (i - p).toNat 0 else mem i

/-- A callback that is never invoked (pull mode has none). -/
def no_notify : ring_buff_notify_t := fun obj _ _ => (RING_BUFF_ERR_OK, obj)

/-- One chunk of a pull-mode run: the region the reserve returned and the bytes the
writer put there. -/
structure chunk where
  reg : region
  data : List Nat
  deriving DecidableEq, Repr

/-- What one `ring_buff_read` of a pull-mode run gave: the chunk it was issued for,
the status, the region returned and the bytes found there at that time. -/
structure read_record where
  expected : chunk
  err : ring_buff_err
  got : region
  bytes : List Nat
  deriving DecidableEq, Repr

/-- A producer and a consumer on one pull-mode buffer. `reserved`, `committed` and
`taken` are the chunks reserved-but-not-committed, committed-but-not-read and
read-but-not-freed, oldest first; `taken` also keeps the region the read returned,
which is the one the consumer frees. -/
structure fifo_state where
  obj : ring_buff_obj
  mem : Int → Nat
  reserved : List chunk
  committed : List chunk
  taken : List (chunk × region)
  reads : List read_record

/-- The operations of a pull-mode run. -/
inductive fifo_op
  | reserve (data : List Nat)
  | commit
  | read
  | free
  deriving DecidableEq, Repr

/-- Start of a run on a created buffer, storage zeroed. -/
def fifo_init (obj : ring_buff_obj) : fifo_state :=
  { obj := obj, mem := fun _ => 0, reserved := [], committed := [], taken := [], reads := [] }

/-- The regions that are reserved-but-not-committed or committed-but-not-freed. -/
def fifo_live (s : fifo_state) : List region :=
  s.reserved.map (fun c => c.reg) ++ s.committed.map (fun c => c.reg) ++
    s.taken.map (fun c => c.1.reg)

/-- The number of bytes reserved or committed and not freed. -/
def fifo_live_bytes (s : fifo_state) : Nat :=
  ((fifo_live s).map (fun r => r.2)).sum

/-- One operation of a run; `none` when the discipline does not allow it here or a
call does not return `RING_BUFF_ERR_OK` at once.
* `reserve data`: `ring_buff_reserve` of `data.length` bytes, granted without a wait;
  the writer then fills the region with `data`.
* `commit`: `ring_buff_commit` of the oldest reservation, with its size.
* `read`: `ring_buff_read` with the size of the oldest committed chunk, made only when
  `acc_size` is at least that size.
* `free`: `ring_buff_free` of the oldest region a read returned. -/
def fifo_step (s : fifo_state) : fifo_op → Option fifo_state
  | .reserve data =>
    match ring_buff_reserve s.obj data.length with
    | .ret RING_BUFF_ERR_OK (some p) o =>
      some { s with obj := o
                    mem := region_store s.mem p data
                    reserved := s.reserved ++ [{ reg := (p, data.length), data := data }] }
    | _ => none
  | .commit =>
    match s.reserved with
    | [] => none
    | c :: rest =>
      let r := ring_buff_commit no_notify s.obj c.reg.1 c.reg.2
      if r.err = RING_BUFF_ERR_OK then
        some { s with obj := r.obj, reserved := rest, committed := s.committed ++ [c] }
      else none
  | .read =>
    match s.committed with
    | [] => none
    | c :: rest =>
      if c.reg.2 ≤ s.obj.acc_size then
        match ring_buff_read s.obj c.reg.2 with
        | .ret RING_BUFF_ERR_OK (some q) (some n) o =>
          some { s with obj := o
                        committed := rest
                        taken := s.taken ++ [(c, (q, n))]
                        reads := s.reads ++
                          [{ expected := c, err := RING_BUFF_ERR_OK, got := (q, n)
                             bytes := region_load s.mem (q, n) }] }
        | _ => none
      else none
  | .free =>
    match s.taken with
    | [] => none
    | (_, r) :: rest =>
      some { s with obj := (ring_buff_free s.obj r.1 r.2).2, taken := rest }

/-- A run: the operations one after the other. -/
def fifo_run (s : fifo_state) : List fifo_op → Option fifo_state
  | [] => some s
  | op :: ops =>
    match fifo_step s op with
    | none => none
    | some t => fifo_run t ops

/-- A callback that frees the window it is given, by `ring_buff_free`. -/
def notify_free : ring_buff_notify_t := fun obj buff size => ring_buff_free obj buff size

/-- A producer on a push-mode buffer whose callback is `notify_free`: `reserved` are
the regions reserved-but-not-committed, `regions` the committed ones in commit order,
`windows` the windows passed to the callback in invocation order, `errs` the codes
the commits and the flush returned. -/
structure push_state where
  obj : ring_buff_obj
  reserved : List region
  regions : List region
  windows : List region
  errs : List ring_buff_err
  deriving DecidableEq, Repr

/-- The operations of a push-mode producer. -/
inductive push_op
  | reserve (size : Nat)
  | commit
  | flush
  deriving DecidableEq, Repr

/-- Start of a push-mode run on a created buffer. -/
def push_init (obj : ring_buff_obj) : push_state :=
  { obj := obj, reserved := [], regions := [], windows := [], errs := [] }

/-- One operation of a push-mode producer; `none` when a reserve is not granted at
once or there is nothing to commit. -/
def push_step (s : push_state) : push_op → Option push_state
  | .reserve size =>
    match ring_buff_reserve s.obj size with
    | .ret RING_BUFF_ERR_OK (some p) o =>
      some { s with obj := o, reserved := s.reserved ++ [(p, size)] }
    | _ => none
  | .commit =>
    match s.reserved with
    | [] => none
    | c :: rest =>
      let r := ring_buff_commit notify_free s.obj c.1 c.2
      some { s with obj := r.obj
                    reserved := rest
                    regions := s.regions ++ [c]
                    windows := s.windows ++ r.window.toList
                    errs := s.errs ++ [r.err] }
  | .flush =>
    let r := ring_buff_flush notify_free s.obj
    some { s with obj := r.obj
                  windows := s.windows ++ r.window.toList
                  errs := s.errs ++ [r.err] }

/-- A push-mode run: the operations one after the other. -/
def push_run (s : push_state) : List push_op → Option push_state
  | [] => some s
  | op :: ops =>
    match push_step s op with
    | none => none
    | some t => push_run t ops

/-! ## Arbitrary sequences of operations -/

/-- The object a `ring_buff_reserve` outcome leaves. -/
def reserve_result.obj : reserve_result → ring_buff_obj
  | .ret _ _ o => o
  | .wait _ o => o

/-- The object a `ring_buff_read` outcome leaves. -/
def read_result.obj : read_result → ring_buff_obj
  | .ret _ _ _ o => o
  | .wait o => o

/-- The operations on a buffer, by any thread: the calls of the interface, and the
resumptions of a blocked reserve or read. -/
inductive ring_buff_op
  | reserve (size : Nat)
  | reserve_wake (loop : reserve_loop) (size : Nat)
  | commit (buff : Int) (size : Nat)
  | free (buff : Int) (size : Nat)
  | read (size : Nat)
  | read_wake (size : Nat)
  | flush
  | cancel
  | stop
  deriving DecidableEq, Repr

/-- The object after an operation. -/
def ring_buff_op.run (notify : ring_buff_notify_t) (obj : ring_buff_obj) :
    ring_buff_op → ring_buff_obj
  | .reserve size => (ring_buff_reserve obj size).obj
  | .reserve_wake loop size => (ring_buff_reserve_wake loop obj size).obj
  | .commit buff size => (ring_buff_commit notify obj buff size).obj
  | .free buff size => (ring_buff_free obj buff size).2
  | .read size => (ring_buff_read obj size).obj
  | .read_wake size => (ring_buff_read_wake obj size).obj
  | .flush => (ring_buff_flush notify obj).obj
  | .cancel => (ring_buff_cancel obj).2
  | .stop => (ring_buff_stop obj).2

/-- The operations of the producer's reservation path. -/
def ring_buff_op.is_reserve : ring_buff_op → Bool
  | .reserve _ => true
  | .reserve_wake _ _ => true
  | _ => false

/-- States reachable from `ring_buff_create` with attributes `attr`, with one producer:
`pend` is the reservation it is blocked in, if any (loop and requested size). A new
`ring_buff_reserve` starts only when none is pending, a pending one resumes with its
own loop and size, and every other operation may come at any time. -/
inductive reachable (notify : ring_buff_notify_t) (attr : ring_buff_attr) :
    ring_buff_obj → Option (reserve_loop × Nat) → Prop
  | create {obj : ring_buff_obj} :
      ring_buff_create true true (some attr) = (RING_BUFF_ERR_OK, some obj) →
      reachable notify attr obj none
  | reserve_ret {obj o : ring_buff_obj} {size : Nat} {err : ring_buff_err}
      {buff : Option Int} :
      reachable notify attr obj none →
      ring_buff_reserve obj size = .ret err buff o →
      reachable notify attr o none
  | reserve_wait {obj o : ring_buff_obj} {size : Nat} {loop : reserve_loop} :
      reachable notify attr obj none →
      ring_buff_reserve obj size = .wait loop o →
      reachable notify attr o (some (loop, size))
  | wake_ret {obj o : ring_buff_obj} {size : Nat} {loop : reserve_loop}
      {err : ring_buff_err} {buff : Option Int} :
      reachable notify attr obj (some (loop, size)) →
      ring_buff_reserve_wake loop obj size = .ret err buff o →
      reachable notify attr o none
  | wake_wait {obj o : ring_buff_obj} {size : Nat} {loop l : reserve_loop} :
      reachable notify attr obj (some (loop, size)) →
      ring_buff_reserve_wake loop obj size = .wait l o →
      reachable notify attr o (some (loop, size))
  | other {obj : ring_buff_obj} {pend : Option (reserve_loop × Nat)} (op : ring_buff_op) :
      reachable notify attr obj pend →
      op.is_reserve = false →
      reachable notify attr (op.run notify obj) pend

/-! ## Concrete buffers used in the evaluations -/

/-- A pull-mode object as `ring_buff_create` makes it for a storage of `size` bytes. -/
def pull_buffer (size : Nat) : ring_buff_obj :=
  { size := size, accumulate := 0, notify_func := false, read := 0, write := 0, acc := 0
    eod := none, acc_size := 0, state := RING_BUFF_STATE_ACTIVE
    read_sem := true, write_sem := true }

/-- A push-mode object as `ring_buff_create` makes it for a storage of `size` bytes and
a threshold `accumulate` of at most half of it. -/
def push_buffer (size accumulate : Nat) : ring_buff_obj :=
  { size := size, accumulate := accumulate, notify_func := true, read := 0, write := 0
    acc := 0, eod := none, acc_size := 0, state := RING_BUFF_STATE_ACTIVE
    read_sem := true, write_sem := true }

/-- The start of the region a reservation outcome grants, if it grants one. -/
def reserve_result.granted : reserve_result → Option Int
  | .ret RING_BUFF_ERR_OK (some p) _ => some p
  | _ => none

/-- What the caller of `ring_buff_read` sees when it returns: the status and the
values of `*buff` and `*read`; `none` while it is blocked. -/
def read_result.status : read_result → Option (ring_buff_err × Option Int × Option Nat)
  | .ret err buff read _ => some (err, buff, read)
  | .wait _ => none

/-- Every prefix of a run is allowed and keeps the live bytes within `limit`. -/
def fifo_within (s : fifo_state) (ops : List fifo_op) (limit : Nat) : Bool :=
  (List.range (ops.length + 1)).all fun k =>
    match fifo_run s (ops.take k) with
    | some t => decide (fifo_live_bytes t ≤ limit)
    | none => false

/-- A 10-byte buffer, 5 bytes written, read and freed, 1 byte committed at offset 5,
then 5 bytes reserved and committed: that reservation wraps to the start and ends on
the read cursor. -/
def run_wrap_onto_read : List fifo_op :=
  [.reserve [1, 1, 1, 1, 1], .commit, .read, .free, .reserve [2], .commit,
   .reserve [3, 3, 3, 3, 3], .commit]

/-- The run `run_wrap_onto_read`, then 1 more byte reserved, written and committed,
and the next chunk read. -/
def run_clobber : List fifo_op :=
  run_wrap_onto_read ++ [.reserve [4], .commit, .read]

/-- A 4-byte buffer: 3 bytes written, read and freed, 1 byte committed at offset 3,
3 bytes reserved and committed, 2 bytes reserved, then the read of the 1-byte chunk. -/
def run_second_wrap : List fifo_op :=
  [.reserve [1, 1, 1], .commit, .read, .free, .reserve [5], .commit,
   .reserve [7, 7, 7], .commit, .reserve [8, 8], .read]

/-- Push mode, capacity 10, threshold 5: reserve and commit 6, 0, 6 and 6 bytes, each
commit right after its reserve, then flush. -/
def run_push_pairs : List push_op :=
  [.reserve 6, .commit, .reserve 0, .commit, .reserve 6, .commit, .reserve 6, .commit,
   .flush]

/-- Push mode, capacity 4, threshold 2: three reserve and commit pairs of 1, 2 and 1
bytes, then two reservations (3 and 2 bytes) committed in order, then flush. -/
def run_push_header_data : List push_op :=
  [.reserve 1, .commit, .reserve 2, .commit, .reserve 1, .commit,
   .reserve 3, .reserve 2, .commit, .commit, .flush]

/-- A 100-byte buffer: 80 bytes written, read and freed, then 10 bytes committed at
offset 80 and 20 bytes committed at the start after a wrap; then `ring_buff_stop`. -/
def stopped_across_marker : Option ring_buff_obj :=
  (fifo_run (fifo_init (pull_buffer 100))
    [.reserve (List.replicate 80 0), .commit, .read, .free,
     .reserve (List.replicate 10 1), .commit,
     .reserve (List.replicate 20 2), .commit]).map fun s => (ring_buff_stop s.obj).2

/-- A 100-byte buffer with 30 bytes committed at the start, then `ring_buff_stop`. -/
def stopped_with_30 : ring_buff_obj :=
  (ring_buff_stop
    (ring_buff_commit no_notify (ring_buff_reserve (pull_buffer 100) 30).obj 0 30).obj).2

/-- A 1024-byte buffer with 4 bytes committed, then `ring_buff_cancel`. -/
def canceled_with_4 : ring_buff_obj :=
  (ring_buff_cancel
    (ring_buff_commit no_notify (ring_buff_reserve (pull_buffer 1024) 4).obj 0 4).obj).2

/-- A 10-byte buffer on which a commit of 12 bytes has returned
`RING_BUFF_ERR_GENERAL`: the state is active and `acc_size` is 12. -/
def over_committed : ring_buff_obj :=
  (ring_buff_commit no_notify (pull_buffer 10) 0 12).obj

/-- A 10-byte buffer: 8 bytes written, read and freed, 4 bytes reserved with a wrap
(end-of-data marker at 8, where the accumulate cursor is), then a commit of 12 bytes,
which has returned `RING_BUFF_ERR_GENERAL` and left `acc_size` at 12. -/
def over_committed_at_marker : Option ring_buff_obj :=
  (fifo_run (fifo_init (pull_buffer 10))
    [.reserve (List.replicate 8 0), .commit, .read, .free,
     .reserve (List.replicate 4 1)]).map fun s =>
    (ring_buff_commit no_notify s.obj 0 12).obj

/-- A 10-byte buffer: 8 bytes written, read and freed, 1 byte committed at offset 8,
4 bytes committed at the start after a wrap: the marker is at 9, one byte after the
accumulate cursor. -/
def run_one_before_marker : List fifo_op :=
  [.reserve (List.replicate 8 0), .commit, .read, .free, .reserve [1], .commit,
   .reserve [2, 2, 2, 2], .commit]

/-- The object the run `run_one_before_marker` leaves. -/
def one_before_marker : ring_buff_obj :=
  { pull_buffer 10 with read := 8, write := 4, acc := 8, eod := some 9, acc_size := 5 }

/-- A 10-byte buffer: 8 bytes written, read and freed, 4 bytes committed at the start
after a wrap: the marker is at 8, on the accumulate cursor. -/
def run_on_marker : List fifo_op :=
  [.reserve (List.replicate 8 0), .commit, .read, .free, .reserve [2, 2, 2, 2], .commit]

/-- The object the run `run_on_marker` leaves. -/
def on_marker : ring_buff_obj :=
  { pull_buffer 10 with read := 8, write := 4, acc := 8, eod := some 8, acc_size := 4 }

/-- A 10-byte pull-mode buffer with 5 bytes reserved and committed. -/
def pull_with_5 : ring_buff_obj :=
  (ring_buff_commit no_notify (ring_buff_reserve (pull_buffer 10) 5).obj 0 5).obj

/-- A 100-byte buffer: 80 bytes written, read and freed, then 30 bytes committed at the
start after a wrap (the marker is at 80, on the accumulate cursor); then
`ring_buff_stop`. Every call of the run returns `RING_BUFF_ERR_OK`. -/
def stopped_on_marker : Option ring_buff_obj :=
  (fifo_run (fifo_init (pull_buffer 100))
    [.reserve (List.replicate 80 0), .commit, .read, .free,
     .reserve (List.replicate 30 1), .commit]).map fun s => (ring_buff_stop s.obj).2

/-- Push mode, capacity 10, threshold 5: reserve and commit 4, 4 and 1 bytes, then
reserve 1 byte; the commit of that byte is the next call. -/
def run_push_near_end : List push_op :=
  [.reserve 4, .commit, .reserve 4, .commit, .reserve 1, .commit, .reserve 1]

/-- Ten consecutive pairs of a reserve of 200 bytes and its commit. -/
def run_ten_pairs : List push_op :=
  [.reserve 200, .commit, .reserve 200, .commit, .reserve 200, .commit,
   .reserve 200, .commit, .reserve 200, .commit, .reserve 200, .commit,
   .reserve 200, .commit, .reserve 200, .commit, .reserve 200, .commit,
   .reserve 200, .commit]

/-- A push-mode buffer (capacity 10, threshold 5) with 4 bytes reserved and committed:
below the threshold, so nothing has been delivered. -/
def push_with_4 : ring_buff_obj :=
  (ring_buff_commit notify_free (ring_buff_reserve (push_buffer 10 5) 4).obj 0 4).obj

/-- The object after a sequence of operations, one after the other. -/
def ring_buff_op.run_all (notify : ring_buff_notify_t) (obj : ring_buff_obj)
    (ops : List ring_buff_op) : ring_buff_obj :=
  ops.foldl (fun o op => op.run notify o) obj

/-- The loop a reservation outcome is blocked in, if it is blocked. -/
def reserve_result.waiting : reserve_result → Option reserve_loop
  | .wait loop _ => some loop
  | .ret _ _ _ => none

/-- The first 80-byte message of the wrap scenario: the bytes 0, 1, ..., 79. -/
def message_one : List Nat := List.range 80

/-- The second 80-byte message of the wrap scenario: the bytes 100, 101, ..., 179. -/
def message_two : List Nat := (List.range 80).map (fun i => 100 + i)

/-- A pull-mode run whose producer can be blocked in a reserve: the run so far, and the
reservation the producer is blocked in, if any (its loop and the bytes it is going to
write). -/
structure blocking_state where
  fifo : fifo_state
  pending : Option (reserve_loop × List Nat)

/-- The operations of such a run: a call that returns at once (as in `fifo_step`), a
`ring_buff_reserve` that goes to its wait, and the blocked reserve running on from its
`ring_buff_binary_sem_take`. -/
inductive blocking_op
  | call (op : fifo_op)
  | reserve_blocked (data : List Nat)
  | wake
  deriving DecidableEq, Repr

/-- The calls the producer makes. -/
def fifo_op.by_producer : fifo_op → Bool
  | .reserve _ => true
  | .commit => true
  | .read => false
  | .free => false

/-- One operation of a run with a blocking producer; `none` when it is not allowed here.
* `call op`: as `fifo_step`; the producer makes no call while it is blocked.
* `reserve_blocked data`: a `ring_buff_reserve` of `data.length` bytes that is not
  granted at once: it is at the semaphore take of one of its loops.
* `wake`: the blocked reserve runs on by `ring_buff_reserve_wake`: it stays blocked
  (the semaphore is down, or it is up and the loop condition still holds), or it is
  granted, and the writer then fills the region. -/
def blocking_step (s : blocking_state) : blocking_op → Option blocking_state
  | .call op =>
    match s.pending, op.by_producer with
    | some _, true => none
    | _, _ => (fifo_step s.fifo op).map fun t => { s with fifo := t }
  | .reserve_blocked data =>
    match s.pending with
    | some _ => none
    | none =>
      match ring_buff_reserve s.fifo.obj data.length with
      | .wait loop o => some { fifo := { s.fifo with obj := o }, pending := some (loop, data) }
      | .ret _ _ _ => none
  | .wake =>
    match s.pending with
    | none => none
    | some (loop, data) =>
      match ring_buff_reserve_wake loop s.fifo.obj data.length with
      | .ret RING_BUFF_ERR_OK (some p) o =>
        some { fifo := { s.fifo with
                           obj := o
                           mem := region_store s.fifo.mem p data
                           reserved := s.fifo.reserved ++
                             [{ reg := (p, data.length), data := data }] }
               pending := none }
      | .wait _ o => some { fifo := { s.fifo with obj := o }, pending := some (loop, data) }
      | .ret _ _ _ => none

/-- A run with a blocking producer: the operations one after the other. -/
def blocking_run (s : blocking_state) : List blocking_op → Option blocking_state
  | [] => some s
  | op :: ops =>
    match blocking_step s op with
    | none => none
    | some t => blocking_run t ops

/-- Start of a run with a blocking producer on a created buffer. -/
def blocking_init (obj : ring_buff_obj) : blocking_state :=
  { fifo := fifo_init obj, pending := none }

/-- The wrap scenario on a 100-byte buffer. The producer reserves, writes and commits
the first message and calls reserve for the second, which blocks; the blocked call
runs on twice (the first take of the semaphore returns, the semaphore being up since
creation); the consumer reads, the blocked call runs on; the consumer frees, the
blocked call runs on; the producer writes and commits the second message and the
consumer reads it. -/
def run_two_messages : List blocking_op :=
  [.call (.reserve message_one), .call .commit, .reserve_blocked message_two, .wake, .wake,
   .call .read, .wake, .call .free, .wake, .call .commit, .call .read]

/-! ## The message queue of `test/message_queue.c`

Boxes live in a heap of their own: an address is a natural number, `none` is NULL, and
a dereference of NULL or of a freed box is a fault (`none` as a result). `malloc` hands
out the addresses `0, 1, 2, ...`, each once. The mutex makes each function atomic. -/

/-- Message queue error codes (`msg_queue_err_t`). -/
inductive msg_queue_err
  | MSG_QUEUE_ERR_OK
  | MSG_QUEUE_ERR_GENERAL
  | MSG_QUEUE_ERR_NO_MEM
  deriving DecidableEq, Repr

open msg_queue_err

/-- A box `msg_box_t`: the data pointer (a number), the size, and the two links. -/
structure msg_box where
  data : Nat
  size : Nat
  previous : Option Nat
  next : Option Nat
  deriving DecidableEq, Repr

/-- The queue object `msg_queue_obj_t`, with the heap its pointers point into: `heap`
maps the address of each box that is allocated and not freed to its contents, and
`brk` is the address the next `malloc` returns. `count` is an `unsigned int`. -/
structure msg_queue_obj where
  first : Option Nat
  last : Option Nat
  count : Nat
  heap : Nat → Option msg_box
  brk : Nat

/-- The heap after a store to the box at address `a`. -/
def heap_store (h : Nat → Option msg_box) (a : Nat) (b : msg_box) : Nat → Option msg_box :=
  fun x => if x = a then some b else h x

/-- The heap after `free` of the box at address `a`. -/
def heap_free (h : Nat → Option msg_box) (a : Nat) : Nat → Option msg_box :=
  fun x => if x = a then none else h x

/-- An assignment to a field of the box `*p`: a fault when `p` is NULL or dangling. -/
def heap_assign (h : Nat → Option msg_box) (p : Option Nat) (f : msg_box → msg_box) :
    Option (Nat → Option msg_box) :=
  match p with
  | none => none
  | some a =>
    match h a with
    | none => none
    | some b => some (heap_store h a (f b))

/-- Function `msg_queue_create`, the three arguments saying whether `malloc`,
`pthread_mutex_init` and `pthread_cond_init` succeed. The second component is the
object a successful call stores in `*handle`; no box is allocated yet. -/
def msg_queue_create (malloc_ok mutex_ok cond_ok : Bool) :
    msg_queue_err × Option msg_queue_obj :=
  if malloc_ok = false then (MSG_QUEUE_ERR_NO_MEM, none)
  else if mutex_ok = false then (MSG_QUEUE_ERR_GENERAL, none)
  else if cond_ok = false then (MSG_QUEUE_ERR_GENERAL, none)
  else
    (MSG_QUEUE_ERR_OK,
      some { first := none, last := none, count := 0, heap := fun _ => none, brk := 0 })

/-- Function `msg_box_create`: the address of the new box and the queue with the heap
that holds it, or `none` (NULL) when `malloc` fails. -/
def msg_box_create (malloc_ok : Bool) (q : msg_queue_obj) (msg_data msg_size : Nat) :
    Option (Nat × msg_queue_obj) :=
  if malloc_ok = false then none
  else
    some (q.brk,
      { q with heap := heap_store q.heap q.brk
                 { data := msg_data, size := msg_size, next := none, previous := none }
               brk := q.brk + 1 })

/-- Function `msg_queue_put`; the outer `none` is a fault. -/
def msg_queue_put (malloc_ok : Bool) (q : msg_queue_obj) (msg_data msg_size : Nat) :
    Option (msg_queue_err × msg_queue_obj) :=
  match msg_box_create malloc_ok q msg_data msg_size with
  | none => some (MSG_QUEUE_ERR_GENERAL, q)
  | some (box, q) =>
    match heap_assign q.heap (some box) (fun b => { b with previous := q.last }) with
    | none => none
    | some h =>
      let q := { q with heap := h }
      let linked :=
        match q.last with
        | none => some q.heap
        | some l => heap_assign q.heap (some l) (fun b => { b with next := some box })
      match linked with
      | none => none
      | some h =>
        let q := { q with heap := h, last := some box }
        let q := if q.count = 0 then { q with first := some box } else q
        some (MSG_QUEUE_ERR_OK, { q with count := (q.count + 1) % UINT32_MOD })

/-- Function `msg_queue_put_urgent`; the outer `none` is a fault. -/
def msg_queue_put_urgent (malloc_ok : Bool) (q : msg_queue_obj) (msg_data msg_size : Nat) :
    Option (msg_queue_err × msg_queue_obj) :=
  match msg_box_create malloc_ok q msg_data msg_size with
  | none => some (MSG_QUEUE_ERR_GENERAL, q)
  | some (box, q) =>
    match heap_assign q.heap (some box) (fun b => { b with next := q.first }) with
    | none => none
    | some h =>
      some (MSG_QUEUE_ERR_OK,
        { q with heap := h, first := some box, count := (q.count + 1) % UINT32_MOD })

/-- Outcome of `msg_queue_get`: it returned with the values written to `*msg_data` and
`*msg_size`, or it is at the `pthread_cond_wait`, or it dereferenced NULL or a freed
box. -/
inductive msg_get_result
  | ret (err : msg_queue_err) (msg_data msg_size : Nat) (q : msg_queue_obj)
  | wait (q : msg_queue_obj)
  | fault

/-- Body of `msg_queue_get` from `box = obj->first` on: it is what runs when the count is
not 0, and what runs after the wait returns. -/
def msg_queue_get_body (q : msg_queue_obj) : msg_get_result :=
  match q.first with
  | none => .fault
  | some box =>
    match q.heap box with
    | none => .fault
    | some b =>
      let q := { q with first := b.next, heap := heap_free q.heap box
                        count := (q.count + UINT32_MOD - 1) % UINT32_MOD }
      let q := if q.count = 0 then { q with last := none } else q
      .ret MSG_QUEUE_ERR_OK b.data b.size q

/-- Function `msg_queue_get`, from the call to its return or its wait. -/
def msg_queue_get (q : msg_queue_obj) : msg_get_result :=
  if q.count = 0 then .wait q else msg_queue_get_body q

/-- The calls of a run on a queue: a put whose allocation succeeds, or a get. -/
inductive mq_op
  | put (msg_data msg_size : Nat)
  | get
  deriving DecidableEq, Repr

/-- One call of a run: the queue afterwards and what a get returned; `none` when the
call does not return `MSG_QUEUE_ERR_OK` at once. -/
def mq_step (q : msg_queue_obj) : mq_op → Option (msg_queue_obj × Option (Nat × Nat))
  | .put d s =>
    match msg_queue_put true q d s with
    | some (MSG_QUEUE_ERR_OK, q) => some (q, none)
    | _ => none
  | .get =>
    match msg_queue_get q with
    | .ret MSG_QUEUE_ERR_OK d s q => some (q, some (d, s))
    | _ => none

/-- A run: the queue at the end and what the gets returned, in order. -/
def mq_run (q : msg_queue_obj) : List mq_op → Option (msg_queue_obj × List (Nat × Nat))
  | [] => some (q, [])
  | op :: ops =>
    match mq_step q op with
    | none => none
    | some (q, out) =>
      match mq_run q ops with
      | none => none
      | some (q, outs) => some (q, out.toList ++ outs)

/-- The messages the puts of a run pass, in order. -/
def mq_puts : List mq_op → List (Nat × Nat)
  | [] => []
  | .put d s :: ops => (d, s) :: mq_puts ops
  | .get :: ops => mq_puts ops

/-- The number of gets of a run. -/
def mq_gets : List mq_op → Nat
  | [] => 0
  | .put _ _ :: ops => mq_gets ops
  | .get :: ops => mq_gets ops + 1

/-- A run, started with `pending` messages queued, calls get only when the queue is
not empty, and never has `2^32` messages queued (the count is an `unsigned int`). -/
def mq_allowed (pending : Nat) : List mq_op → Bool
  | [] => true
  | .put _ _ :: ops => decide (pending + 1 < UINT32_MOD) && mq_allowed (pending + 1) ops
  | .get :: ops => decide (0 < pending) && mq_allowed (pending - 1) ops

/-- The queue as `msg_queue_create` makes it. -/
def empty_queue : msg_queue_obj :=
  { first := none, last := none, count := 0, heap := fun _ => none, brk := 0 }

/-- The boxes `cells` (address, data, size) are chained by `next` from the pointer
`p`, the last one having a NULL `next`. -/
def mq_chain (h : Nat → Option msg_box) : Option Nat → List (Nat × Nat × Nat) → Prop
  | p, [] => p = none
  | p, (a, d, s) :: cells =>
    p = some a ∧ ∃ b, h a = some b ∧ b.data = d ∧ b.size = s ∧ mq_chain h b.next cells

/-- The queue object represents the boxes `cells`, first to last. -/
def mq_inv (q : msg_queue_obj) (cells : List (Nat × Nat × Nat)) : Prop :=
  mq_chain q.heap q.first cells ∧
  q.last = (cells.getLast?).map (fun c => c.1) ∧
  q.count = cells.length ∧
  cells.length < UINT32_MOD ∧
  (cells.map (fun c => c.1)).Nodup ∧
  ∀ c ∈ cells, c.1 < q.brk

/-- A run of five calls on a queue: two puts, a get, a put, a get. -/
def queue_run_example : List mq_op :=
  [.put 10 1, .put 20 2, .get, .put 30 3, .get]

/-- The calls on a queue, `msg_queue_put_urgent` among them; every allocation
succeeds. -/
inductive mq_call
  | put (msg_data msg_size : Nat)
  | put_urgent (msg_data msg_size : Nat)
  | get
  deriving DecidableEq, Repr

/-- What a call did: it returned a code (a get also the data pointer and the size), or
it is at the wait of `msg_queue_get`, or it dereferenced NULL or a freed box. -/
inductive mq_outcome
  | returned (err : msg_queue_err) (got : Option (Nat × Nat))
  | waits
  | faults
  deriving DecidableEq, Repr

/-- One call: its outcome and the queue afterwards (the queue as it was, on a fault). -/
def mq_call.run (q : msg_queue_obj) : mq_call → mq_outcome × msg_queue_obj
  | .put d s =>
    match msg_queue_put true q d s with
    | some (e, q2) => (.returned e none, q2)
    | none => (.faults, q)
  | .put_urgent d s =>
    match msg_queue_put_urgent true q d s with
    | some (e, q2) => (.returned e none, q2)
    | none => (.faults, q)
  | .get =>
    match msg_queue_get q with
    | .ret e d s q2 => (.returned e (some (d, s)), q2)
    | .wait q2 => (.waits, q2)
    | .fault => (.faults, q)

/-- The outcomes of the calls of a run, in order, and the queue at the end; the run
ends at the first call that does not return. -/
def mq_trace (q : msg_queue_obj) : List mq_call → List mq_outcome × msg_queue_obj
  | [] => ([], q)
  | c :: cs =>
    match c.run q with
    | (.returned e g, q2) => (.returned e g :: (mq_trace q2 cs).1, (mq_trace q2 cs).2)
    | (o, q2) => ([o], q2)

/-- The addresses of the boxes reachable from the pointer `p` by following `next`, in
chain order, at most `fuel` of them. -/
def mq_boxes (h : Nat → Option msg_box) : Nat → Option Nat → List Nat
  | 0, _ => []
  | _ + 1, none => []
  | fuel + 1, some a =>
    match h a with
    | none => [a]
    | some b => a :: mq_boxes h fuel b.next

/-- The fields of a queue and the boxes reachable from `first`: `count`, `first`,
`last`, and the chain. -/
def mq_shape (q : msg_queue_obj) : Nat × Option Nat × Option Nat × List Nat :=
  (q.count, q.first, q.last, mq_boxes q.heap (q.brk + 1) q.first)

/-- An urgent put on the fresh queue, a put, and two gets. -/
def run_urgent_first : List mq_call :=
  [.put_urgent 7 1, .put 8 2, .get, .get]

/-- A 60-byte buffer: 30 bytes written, committed, read and freed. -/
def run_fill_and_drain : List fifo_op :=
  [.reserve (List.replicate 30 0), .commit, .read, .free]

/-- Push mode: the first reservation, of 6 bytes, and its commit. -/
def run_push_first_pair : List push_op :=
  [.reserve 6, .commit]

/-- Push mode, capacity 10, threshold 5: reserve and commit 6, 0, 6 and 6 bytes, each
commit right after its reserve. -/
def run_push_four_pairs : List push_op :=
  [.reserve 6, .commit, .reserve 0, .commit, .reserve 6, .commit, .reserve 6, .commit]

/-- The buffer the run `run_on_marker` leaves (capacity 10, 4 bytes accumulated at the
start, the marker at 8 on the accumulate cursor), then `ring_buff_stop`. -/
def stopped_on_marker_small : Option ring_buff_obj :=
  (fifo_run (fifo_init (pull_buffer 10)) run_on_marker).map fun s => (ring_buff_stop s.obj).2

/-! ## The reservation with the addresses the source compares

The cursors are pointers, and `ring_buff_reserve` compares pointer expressions. In
`ring_buff_reserve` above the comparisons are made on offsets in the integers, which
is what the target computes as long as no pointer expression leaves the address
range. The definitions below make the comparisons on addresses: the storage is at the
address `base`, the cursor at offset `c` is the address `base + c`, and the target
reduces an address modulo `addr_mod`, so `obj->read - size` wraps when it goes below
address 0 and `obj->write + size` wraps when it goes above the last address. -/

/-- The value of a pointer expression on a target whose pointers have `addr_mod`
values. -/
def ptr_val (addr_mod : Nat) (a : Int) : Int := a % (addr_mod : Int)

/-- Loop of the branch "there is enough space left till the end of buffer", on
addresses. -/
def ring_buff_reserve_direct_at (addr_mod base : Nat) (obj : ring_buff_obj) (size : Nat) :
    reserve_result :=
  if ptr_val addr_mod ((base : Int) + obj.write) < ptr_val addr_mod ((base : Int) + obj.read) ∧
      ptr_val addr_mod ((base : Int) + obj.write + (size : Int)) ≥
        ptr_val addr_mod ((base : Int) + obj.read) then
    .wait .direct obj
  else
    .ret RING_BUFF_ERR_OK (some obj.write) { obj with write := obj.write + (size : Int) }

/-- Loop of the branch "wrap around", on addresses: the condition is
`(obj->read - size) < obj->buff || obj->read > obj->write`. -/
def ring_buff_reserve_wrap_at (addr_mod base : Nat) (obj : ring_buff_obj) (size : Nat) :
    reserve_result :=
  if ptr_val addr_mod ((base : Int) + obj.read - (size : Int)) < ptr_val addr_mod (base : Int) ∨
      ptr_val addr_mod ((base : Int) + obj.read) > ptr_val addr_mod ((base : Int) + obj.write) then
    .wait .wrap obj
  else
    .ret RING_BUFF_ERR_OK (some 0)
      { obj with eod := some obj.write, write := (0 : Int) + (size : Int) }

/-- Function `ring_buff_reserve` for a storage at the address `base`, from the call to
its return or its first wait. -/
def ring_buff_reserve_at (addr_mod base : Nat) (obj : ring_buff_obj) (size : Nat) :
    reserve_result :=
  if size > obj.size then .ret RING_BUFF_ERR_SIZE none obj
  else if ring_buff_check_state obj RING_BUFF_STATE_ACTIVE.val ≠ RING_BUFF_ERR_OK then
    .ret RING_BUFF_ERR_PERM none obj
  else if ptr_val addr_mod ((base : Int) + obj.write + (size : Int)) ≤
      ptr_val addr_mod ((base : Int) + (obj.size : Int)) then
    ring_buff_reserve_direct_at addr_mod base obj size
  else
    ring_buff_reserve_wrap_at addr_mod base obj size

/-- Number of values of a pointer on a 64-bit target. -/
def ADDR_MOD_64 : Nat := 18446744073709551616

/-- A 100-byte buffer: 30 bytes written, committed, read and freed, then 20 bytes
written and committed at offset 30, not read. -/
def run_twenty_unread : List fifo_op :=
  [.reserve (List.replicate 30 0), .commit, .read, .free,
   .reserve (List.replicate 20 1), .commit]

/-! ## Theorems -/

/-- The state check against `ACTIVE` passes exactly in the active state. -/
theorem check_state_active (obj : ring_buff_obj) :
    ring_buff_check_state obj RING_BUFF_STATE_ACTIVE.val = RING_BUFF_ERR_OK ↔
      obj.state = RING_BUFF_STATE_ACTIVE := by
  unfold ring_buff_check_state
  cases h : obj.state <;> simp [ring_buff_state.val]

/-- The state check against `ACTIVE | STOPPED` fails exactly when canceled. -/
theorem check_state_active_stopped (obj : ring_buff_obj) :
    ring_buff_check_state obj
        (RING_BUFF_STATE_ACTIVE.val ||| RING_BUFF_STATE_STOPPED.val) = RING_BUFF_ERR_OK ↔
      obj.state ≠ RING_BUFF_STATE_CANCELED := by
  unfold ring_buff_check_state
  cases h : obj.state <;> simp only [ring_buff_state.val] <;> decide

/-- The object `pull_buffer size` is what `ring_buff_create` returns for a storage of
`size > 0` bytes, no accumulation and no callback. -/
theorem create_pull_buffer (size : Nat) (h : size ≠ 0) :
    ring_buff_create true true (some ⟨true, size, 0, false⟩) =
      (RING_BUFF_ERR_OK, some (pull_buffer size)) := by
  simp [ring_buff_create, pull_buffer, h]

/-- The object `push_buffer size accumulate` is what `ring_buff_create` returns for a
storage of `size > 0` bytes, a threshold of at most half of it and a callback. -/
theorem create_push_buffer (size accumulate : Nat) (h : size ≠ 0)
    (ha : accumulate ≤ size / 2) :
    ring_buff_create true true (some ⟨true, size, accumulate, true⟩) =
      (RING_BUFF_ERR_OK, some (push_buffer size accumulate)) := by
  have h2 : ¬ accumulate > size / 2 := Nat.not_lt.mpr ha
  simp [ring_buff_create, push_buffer, h, h2]

/-- C7: a reservation larger than the storage returns `RING_BUFF_ERR_SIZE` at once, in
every state of the buffer: no wait, no region, and the object is left as it was. -/
theorem reserve_oversize_is_size_error (obj : ring_buff_obj) (size : Nat)
    (h : size > obj.size) :
    ring_buff_reserve obj size = .ret RING_BUFF_ERR_SIZE none obj := by
  simp [ring_buff_reserve, h]

/-- Witness of C7: 11 bytes asked of a 10-byte buffer. -/
theorem reserve_oversize_is_size_error_witness :
    11 > (pull_buffer 10).size ∧
      ring_buff_reserve (pull_buffer 10) 11 = .ret RING_BUFF_ERR_SIZE none (pull_buffer 10) :=
  ⟨by decide, reserve_oversize_is_size_error (pull_buffer 10) 11 (by decide)⟩

/-- C8: with a size that fits, `ring_buff_reserve` on a buffer that is not active
returns `RING_BUFF_ERR_PERM` with no region and the object unchanged; a reservation
blocked in either loop that is woken (the take on `write_sem` returns) and then finds
the buffer not active returns `RING_BUFF_ERR_PERM` with no region, every field but the
taken semaphore flag unchanged; and while `write_sem` stays down it remains blocked. -/
theorem reserve_not_active_is_perm (obj : ring_buff_obj) (size : Nat)
    (hsize : size ≤ obj.size) (hst : obj.state ≠ RING_BUFF_STATE_ACTIVE) :
    ring_buff_reserve obj size = .ret RING_BUFF_ERR_PERM none obj ∧
    (∀ loop, obj.write_sem = true →
      ring_buff_reserve_wake loop obj size =
        .ret RING_BUFF_ERR_PERM none { obj with write_sem := false }) ∧
    (∀ loop, obj.write_sem = false →
      ring_buff_reserve_wake loop obj size = .wait loop obj) := by
  have hc : ring_buff_check_state obj RING_BUFF_STATE_ACTIVE.val ≠ RING_BUFF_ERR_OK :=
    fun h => hst ((check_state_active obj).1 h)
  refine ⟨?_, ?_, ?_⟩
  · have h1 : ¬ size > obj.size := Nat.not_lt.mpr hsize
    simp [ring_buff_reserve, h1, hc]
  · intro loop hsem
    have hc2 : ring_buff_check_state { obj with write_sem := false }
        RING_BUFF_STATE_ACTIVE.val ≠ RING_BUFF_ERR_OK :=
      fun h => hst ((check_state_active _).1 h)
    simp [ring_buff_reserve_wake, ring_buff_binary_sem_take, hsem, hc2]
  · intro loop hsem
    simp [ring_buff_reserve_wake, ring_buff_binary_sem_take, hsem]

/-- Witness of C8: 4 bytes asked of a stopped 10-byte buffer. -/
theorem reserve_not_active_is_perm_witness :
    4 ≤ (ring_buff_stop (pull_buffer 10)).2.size ∧
    (ring_buff_stop (pull_buffer 10)).2.state ≠ RING_BUFF_STATE_ACTIVE ∧
    ring_buff_reserve (ring_buff_stop (pull_buffer 10)).2 4 =
      .ret RING_BUFF_ERR_PERM none (ring_buff_stop (pull_buffer 10)).2 :=
  ⟨by decide, by decide,
    (reserve_not_active_is_perm (ring_buff_stop (pull_buffer 10)).2 4
      (by decide) (by decide)).1⟩

/-- The state field after a reservation call or resumption is the one before. -/
theorem reserve_state (obj : ring_buff_obj) (size : Nat) :
    (ring_buff_reserve obj size).obj.state = obj.state ∧
    ∀ loop, (ring_buff_reserve_wake loop obj size).obj.state = obj.state := by
  constructor
  · unfold ring_buff_reserve ring_buff_reserve_direct ring_buff_reserve_wrap
    split_ifs <;> rfl
  · intro loop
    cases hs : obj.write_sem <;> cases loop <;>
      simp only [ring_buff_reserve_wake, ring_buff_binary_sem_take, hs,
        ring_buff_reserve_direct, ring_buff_reserve_wrap, reduceIte, Bool.false_eq_true] <;>
      (try split_ifs) <;> rfl

/-- The state field after the body of a read is the one before. -/
theorem read_serve_state (obj : ring_buff_obj) (size : Nat) :
    (ring_buff_read_serve obj size).obj.state = obj.state := by
  unfold ring_buff_read_serve ring_buff_read_plain
  split <;> dsimp only <;> (try split_ifs) <;> rfl

/-- The state field after a read call or resumption is the one before. -/
theorem read_state (obj : ring_buff_obj) (size : Nat) :
    (ring_buff_read obj size).obj.state = obj.state ∧
    (ring_buff_read_wake obj size).obj.state = obj.state := by
  constructor
  · unfold ring_buff_read ring_buff_read_loop
    split_ifs
    · rfl
    · rfl
    · exact read_serve_state obj size
  · cases hs : obj.read_sem <;>
      simp only [ring_buff_read_wake, ring_buff_binary_sem_take, hs, ring_buff_read_loop,
        reduceIte, Bool.false_eq_true]
    · rfl
    · split_ifs
      · rfl
      · rfl
      · exact read_serve_state _ size

/-- With a callback that leaves the state alone, commit and flush leave it alone. -/
theorem commit_flush_state (notify : ring_buff_notify_t) (obj : ring_buff_obj)
    (hcb : ∀ o b n, (notify o b n).2.state = o.state) :
    (∀ buff size, (ring_buff_commit notify obj buff size).obj.state = obj.state) ∧
    (ring_buff_flush notify obj).obj.state = obj.state := by
  constructor
  · intro buff size
    unfold ring_buff_commit ring_buff_handle_acc
    dsimp only
    split_ifs <;> simp only [hcb]
  · unfold ring_buff_flush
    dsimp only
    split_ifs <;> simp only [hcb]

/-- C6, as stated, fails: `ring_buff_cancel` and `ring_buff_stop` assign the state
without looking at it, so a stopped buffer becomes canceled by a cancel, and a
canceled buffer becomes stopped by a stop. -/
theorem stopped_buffer_can_be_canceled :
    (ring_buff_stop (pull_buffer 10)).2.state = RING_BUFF_STATE_STOPPED ∧
    (ring_buff_op.run no_notify (ring_buff_stop (pull_buffer 10)).2 .cancel).state =
      RING_BUFF_STATE_CANCELED ∧
    (ring_buff_cancel (pull_buffer 10)).2.state = RING_BUFF_STATE_CANCELED ∧
    (ring_buff_op.run no_notify (ring_buff_cancel (pull_buffer 10)).2 .stop).state =
      RING_BUFF_STATE_STOPPED := by
  decide

/-- C6, amended: on a buffer that is canceled or stopped, reserve, commit, free, read,
flush and the resumptions of blocked calls leave the state as it is (the callback
being one that does not change it); cancel sets it to canceled and stop to stopped
whatever it was; and no operation makes it active again. -/
theorem state_never_active_again (notify : ring_buff_notify_t) (obj : ring_buff_obj)
    (op : ring_buff_op)
    (hcb : ∀ o b n, (notify o b n).2.state = o.state)
    (hst : obj.state = RING_BUFF_STATE_CANCELED ∨ obj.state = RING_BUFF_STATE_STOPPED) :
    (op ≠ .cancel → op ≠ .stop → (op.run notify obj).state = obj.state) ∧
    (op = .cancel → (op.run notify obj).state = RING_BUFF_STATE_CANCELED) ∧
    (op = .stop → (op.run notify obj).state = RING_BUFF_STATE_STOPPED) ∧
    (op.run notify obj).state ≠ RING_BUFF_STATE_ACTIVE := by
  have hna : obj.state ≠ RING_BUFF_STATE_ACTIVE := by
    rcases hst with h | h <;> rw [h] <;> decide
  cases op with
  | reserve size =>
    have h : (ring_buff_op.run notify obj (.reserve size)).state = obj.state :=
      (reserve_state obj size).1
    exact ⟨fun _ _ => h, nofun, nofun, h ▸ hna⟩
  | reserve_wake loop size =>
    have h : (ring_buff_op.run notify obj (.reserve_wake loop size)).state = obj.state :=
      (reserve_state obj size).2 loop
    exact ⟨fun _ _ => h, nofun, nofun, h ▸ hna⟩
  | commit buff size =>
    have h : (ring_buff_op.run notify obj (.commit buff size)).state = obj.state :=
      (commit_flush_state notify obj hcb).1 buff size
    exact ⟨fun _ _ => h, nofun, nofun, h ▸ hna⟩
  | free buff size =>
    exact ⟨fun _ _ => rfl, nofun, nofun, hna⟩
  | read size =>
    have h : (ring_buff_op.run notify obj (.read size)).state = obj.state :=
      (read_state obj size).1
    exact ⟨fun _ _ => h, nofun, nofun, h ▸ hna⟩
  | read_wake size =>
    have h : (ring_buff_op.run notify obj (.read_wake size)).state = obj.state :=
      (read_state obj size).2
    exact ⟨fun _ _ => h, nofun, nofun, h ▸ hna⟩
  | flush =>
    have h : (ring_buff_op.run notify obj .flush).state = obj.state :=
      (commit_flush_state notify obj hcb).2
    exact ⟨fun _ _ => h, nofun, nofun, h ▸ hna⟩
  | cancel =>
    exact ⟨fun c => absurd rfl c, fun _ => rfl, nofun, nofun⟩
  | stop =>
    exact ⟨fun _ c => absurd rfl c, nofun, fun _ => rfl, nofun⟩

/-- Witness of the amended C6: a read of 4 bytes on a canceled 10-byte buffer. -/
theorem state_never_active_again_witness :
    ((ring_buff_cancel (pull_buffer 10)).2.state = RING_BUFF_STATE_CANCELED ∨
      (ring_buff_cancel (pull_buffer 10)).2.state = RING_BUFF_STATE_STOPPED) ∧
    (ring_buff_op.run no_notify (ring_buff_cancel (pull_buffer 10)).2 (.read 4)).state =
      (ring_buff_cancel (pull_buffer 10)).2.state :=
  ⟨Or.inl rfl,
    (state_never_active_again no_notify (ring_buff_cancel (pull_buffer 10)).2 (.read 4)
      (fun _ _ _ => rfl) (Or.inl rfl)).1 (by decide) (by decide)⟩

/-- A reservation that returns, entered with the write cursor inside the storage:
the size field is kept, the write cursor stays inside, and a region that is handed
out lies inside the storage. -/
theorem reserve_ret_inside (obj o : ring_buff_obj) (size : Nat) (err : ring_buff_err)
    (buff : Option Int) (h0 : 0 ≤ obj.write) (h1 : obj.write ≤ (obj.size : Int))
    (h : ring_buff_reserve obj size = .ret err buff o) :
    o.size = obj.size ∧ 0 ≤ o.write ∧ o.write ≤ (o.size : Int) ∧
    ∀ p, buff = some p → 0 ≤ p ∧ p + (size : Int) ≤ (obj.size : Int) := by
  unfold ring_buff_reserve ring_buff_reserve_direct ring_buff_reserve_wrap at h
  split_ifs at h with hs hc hd hw hw <;> cases h
  · exact ⟨rfl, h0, h1, nofun⟩
  · exact ⟨rfl, h0, h1, nofun⟩
  · refine ⟨rfl, ?_, ?_, ?_⟩
    · show 0 ≤ obj.write + (size : Int)
      omega
    · show obj.write + (size : Int) ≤ (obj.size : Int)
      omega
    · intro p hp
      cases hp
      omega
  · refine ⟨rfl, ?_, ?_, ?_⟩
    · show 0 ≤ (0 : Int) + (size : Int)
      omega
    · show (0 : Int) + (size : Int) ≤ (obj.size : Int)
      omega
    · intro p hp
      cases hp
      omega

/-- A reservation that blocks leaves the object as it was, asked for a size that
fits, and is in the direct loop only if the size fits before the physical end. -/
theorem reserve_wait_branch (obj o : ring_buff_obj) (size : Nat) (loop : reserve_loop)
    (h : ring_buff_reserve obj size = .wait loop o) :
    o = obj ∧ size ≤ obj.size ∧
    (loop = .direct → obj.write + (size : Int) ≤ (obj.size : Int)) := by
  unfold ring_buff_reserve ring_buff_reserve_direct ring_buff_reserve_wrap at h
  split_ifs at h with hs hc hd hw hw <;> cases h
  · exact ⟨rfl, by omega, fun _ => by omega⟩
  · exact ⟨rfl, by omega, nofun⟩

/-- A blocked reservation that resumes and returns, the write cursor being inside the
storage and the call being in the loop its size belongs to. -/
theorem reserve_wake_ret_inside (obj o : ring_buff_obj) (size : Nat) (loop : reserve_loop)
    (err : ring_buff_err) (buff : Option Int)
    (h0 : 0 ≤ obj.write) (h1 : obj.write ≤ (obj.size : Int)) (hsize : size ≤ obj.size)
    (hloop : loop = .direct → obj.write + (size : Int) ≤ (obj.size : Int))
    (h : ring_buff_reserve_wake loop obj size = .ret err buff o) :
    o.size = obj.size ∧ 0 ≤ o.write ∧ o.write ≤ (o.size : Int) ∧
    ∀ p, buff = some p → 0 ≤ p ∧ p + (size : Int) ≤ (obj.size : Int) := by
  cases hsem : obj.write_sem <;> cases loop <;>
    simp only [ring_buff_reserve_wake, ring_buff_binary_sem_take, hsem,
      ring_buff_reserve_direct, ring_buff_reserve_wrap, reduceIte, Bool.false_eq_true] at h
  · cases h
  · cases h
  · have hd := hloop rfl
    split_ifs at h <;> cases h
    · exact ⟨rfl, h0, h1, nofun⟩
    · refine ⟨rfl, ?_, ?_, ?_⟩
      · show 0 ≤ obj.write + (size : Int)
        omega
      · show obj.write + (size : Int) ≤ (obj.size : Int)
        omega
      · intro p hp
        cases hp
        omega
  · split_ifs at h <;> cases h
    · exact ⟨rfl, h0, h1, nofun⟩
    · refine ⟨rfl, ?_, ?_, ?_⟩
      · show 0 ≤ (0 : Int) + (size : Int)
        omega
      · show (0 : Int) + (size : Int) ≤ (obj.size : Int)
        omega
      · intro p hp
        cases hp
        omega

/-- A blocked reservation that resumes and blocks again keeps cursor and size. -/
theorem reserve_wake_wait_frame (obj o : ring_buff_obj) (size : Nat) (loop l : reserve_loop)
    (h : ring_buff_reserve_wake loop obj size = .wait l o) :
    o.write = obj.write ∧ o.size = obj.size := by
  cases hsem : obj.write_sem <;> cases loop <;>
    simp only [ring_buff_reserve_wake, ring_buff_binary_sem_take, hsem,
      ring_buff_reserve_direct, ring_buff_reserve_wrap, reduceIte, Bool.false_eq_true] at h <;>
    (try split_ifs at h) <;> cases h <;> exact ⟨rfl, rfl⟩

/-- The body of a read leaves the write cursor and the size alone. -/
theorem read_serve_write (obj : ring_buff_obj) (size : Nat) :
    (ring_buff_read_serve obj size).obj.write = obj.write ∧
    (ring_buff_read_serve obj size).obj.size = obj.size := by
  unfold ring_buff_read_serve ring_buff_read_plain
  split <;> dsimp only <;> (try split_ifs) <;> exact ⟨rfl, rfl⟩

/-- Only the reservation path moves the write cursor: every other operation, with a
callback that does not reserve, leaves the write cursor and the size alone. -/
theorem other_op_write (notify : ring_buff_notify_t) (obj : ring_buff_obj)
    (op : ring_buff_op)
    (hcb : ∀ o b n, (notify o b n).2.write = o.write ∧ (notify o b n).2.size = o.size)
    (hop : op.is_reserve = false) :
    (op.run notify obj).write = obj.write ∧ (op.run notify obj).size = obj.size := by
  cases op with
  | reserve size => cases hop
  | reserve_wake loop size => cases hop
  | commit buff size =>
    show (ring_buff_commit notify obj buff size).obj.write = _ ∧
      (ring_buff_commit notify obj buff size).obj.size = _
    unfold ring_buff_commit ring_buff_handle_acc
    dsimp only
    split_ifs <;> first | exact ⟨rfl, rfl⟩ | exact hcb _ _ _
  | free buff size => exact ⟨rfl, rfl⟩
  | read size =>
    show (ring_buff_read obj size).obj.write = _ ∧ (ring_buff_read obj size).obj.size = _
    unfold ring_buff_read ring_buff_read_loop
    split_ifs
    · exact ⟨rfl, rfl⟩
    · exact ⟨rfl, rfl⟩
    · exact read_serve_write obj size
  | read_wake size =>
    show (ring_buff_read_wake obj size).obj.write = _ ∧
      (ring_buff_read_wake obj size).obj.size = _
    cases hs : obj.read_sem <;>
      simp only [ring_buff_read_wake, ring_buff_binary_sem_take, hs, ring_buff_read_loop,
        reduceIte, Bool.false_eq_true]
    · exact ⟨rfl, rfl⟩
    · split_ifs
      · exact ⟨rfl, rfl⟩
      · exact ⟨rfl, rfl⟩
      · exact read_serve_write _ size
  | flush =>
    show (ring_buff_flush notify obj).obj.write = _ ∧ (ring_buff_flush notify obj).obj.size = _
    unfold ring_buff_flush
    dsimp only
    split_ifs <;> first | exact ⟨rfl, rfl⟩ | exact hcb _ _ _
  | cancel => exact ⟨rfl, rfl⟩
  | stop => exact ⟨rfl, rfl⟩

/-- A successful `ring_buff_create` leaves all cursors at the start of the storage,
no end-of-data marker, nothing accumulated, the active state and the size asked. -/
theorem create_ok_fields (attr : ring_buff_attr) (obj : ring_buff_obj)
    (h : ring_buff_create true true (some attr) = (RING_BUFF_ERR_OK, some obj)) :
    obj.read = 0 ∧ obj.write = 0 ∧ obj.acc = 0 ∧ obj.eod = none ∧ obj.acc_size = 0 ∧
      obj.state = RING_BUFF_STATE_ACTIVE ∧ obj.size = attr.size := by
  unfold ring_buff_create at h
  dsimp only at h
  split_ifs at h <;> cases h <;> exact ⟨rfl, rfl, rfl, rfl, rfl, rfl, rfl⟩

/-- In every reachable state the write cursor is inside the storage, and a pending
reservation asked for a size that fits and waits in the loop of its size. -/
theorem reachable_write_inside (notify : ring_buff_notify_t) (attr : ring_buff_attr)
    (obj : ring_buff_obj) (pend : Option (reserve_loop × Nat))
    (hcb : ∀ o b n, (notify o b n).2.write = o.write ∧ (notify o b n).2.size = o.size)
    (hr : reachable notify attr obj pend) :
    0 ≤ obj.write ∧ obj.write ≤ (obj.size : Int) ∧
    ∀ loop size, pend = some (loop, size) → size ≤ obj.size ∧
      (loop = .direct → obj.write + (size : Int) ≤ (obj.size : Int)) := by
  induction hr with
  | create hc =>
    obtain ⟨_, hw, _⟩ := create_ok_fields attr _ hc
    rw [hw]
    exact ⟨le_refl _, Int.ofNat_nonneg _, nofun⟩
  | reserve_ret _ hres ih =>
    obtain ⟨_, h2, h3, _⟩ := reserve_ret_inside _ _ _ _ _ ih.1 ih.2.1 hres
    exact ⟨h2, h3, nofun⟩
  | reserve_wait _ hres ih =>
    obtain ⟨rfl, h2, h3⟩ := reserve_wait_branch _ _ _ _ hres
    refine ⟨ih.1, ih.2.1, ?_⟩
    intro loop size hp
    cases hp
    exact ⟨h2, h3⟩
  | wake_ret _ hres ih =>
    obtain ⟨hs, hl⟩ := ih.2.2 _ _ rfl
    obtain ⟨_, h2, h3, _⟩ := reserve_wake_ret_inside _ _ _ _ _ _ ih.1 ih.2.1 hs hl hres
    exact ⟨h2, h3, nofun⟩
  | wake_wait _ hres ih =>
    obtain ⟨hw, hz⟩ := reserve_wake_wait_frame _ _ _ _ _ hres
    rw [hw, hz]
    exact ih
  | other op _ hop ih =>
    obtain ⟨hw, hz⟩ := other_op_write notify _ op hcb hop
    rw [hw, hz]
    exact ih

/-- C5: in every state reachable from `ring_buff_create` by any sequence of operations
(one producer, a callback that does not itself reserve), the write cursor is within
`[0, capacity]`; a region granted by `ring_buff_reserve` for a size that fits, at once
or after waking from a wait, starts at an offset `p` with `0 ≤ p` and
`p + size ≤ capacity`; and the write cursor is within `[0, capacity]` afterwards. -/
theorem reserve_region_inside_storage (notify : ring_buff_notify_t) (attr : ring_buff_attr)
    (obj : ring_buff_obj) (pend : Option (reserve_loop × Nat))
    (hcb : ∀ o b n, (notify o b n).2.write = o.write ∧ (notify o b n).2.size = o.size)
    (hr : reachable notify attr obj pend) :
    (0 ≤ obj.write ∧ obj.write ≤ (obj.size : Int)) ∧
    (∀ size p o, pend = none → size ≤ obj.size →
      ring_buff_reserve obj size = .ret RING_BUFF_ERR_OK (some p) o →
      0 ≤ p ∧ p + (size : Int) ≤ (obj.size : Int) ∧
        0 ≤ o.write ∧ o.write ≤ (o.size : Int) ∧ o.size = obj.size) ∧
    (∀ loop size p o, pend = some (loop, size) →
      ring_buff_reserve_wake loop obj size = .ret RING_BUFF_ERR_OK (some p) o →
      0 ≤ p ∧ p + (size : Int) ≤ (obj.size : Int) ∧
        0 ≤ o.write ∧ o.write ≤ (o.size : Int) ∧ o.size = obj.size) := by
  obtain ⟨h0, h1, hp⟩ := reachable_write_inside notify attr obj pend hcb hr
  refine ⟨⟨h0, h1⟩, ?_, ?_⟩
  · intro size p o _ _ hres
    obtain ⟨hz, h2, h3, h4⟩ := reserve_ret_inside _ _ _ _ _ h0 h1 hres
    obtain ⟨h5, h6⟩ := h4 p rfl
    exact ⟨h5, h6, h2, h3, hz⟩
  · intro loop size p o hpend hres
    obtain ⟨hs, hl⟩ := hp loop size hpend
    obtain ⟨hz, h2, h3, h4⟩ := reserve_wake_ret_inside _ _ _ _ _ _ h0 h1 hs hl hres
    obtain ⟨h5, h6⟩ := h4 p rfl
    exact ⟨h5, h6, h2, h3, hz⟩

/-- Witness of C5: the first reservation of 4 bytes on a created 10-byte buffer. -/
theorem reserve_region_inside_storage_witness :
    reachable no_notify ⟨true, 10, 0, false⟩ (pull_buffer 10) none ∧
    ring_buff_reserve (pull_buffer 10) 4 =
      .ret RING_BUFF_ERR_OK (some 0) { pull_buffer 10 with write := 4 } ∧
    ((0 : Int) ≤ 0 ∧ (0 : Int) + ((4 : Nat) : Int) ≤ ((pull_buffer 10).size : Int) ∧
      0 ≤ ({ pull_buffer 10 with write := 4 } : ring_buff_obj).write ∧
      ({ pull_buffer 10 with write := 4 } : ring_buff_obj).write ≤
        (({ pull_buffer 10 with write := 4 } : ring_buff_obj).size : Int) ∧
      ({ pull_buffer 10 with write := 4 } : ring_buff_obj).size = (pull_buffer 10).size) :=
  ⟨reachable.create rfl, rfl,
    (reserve_region_inside_storage no_notify ⟨true, 10, 0, false⟩ (pull_buffer 10) none
      (fun _ _ _ => ⟨rfl, rfl⟩) (reachable.create rfl)).2.1 4 0 _ rfl (by decide) rfl⟩

/-- C1, evaluated: after the run `run_wrap_onto_read` on a created 10-byte pull-mode
buffer, the regions `(5,1)` and `(0,5)` are committed and not read, 6 bytes in all,
nothing else is live, the read and write cursors are both 5, and `ring_buff_reserve`
of 1 byte is granted at once at offset 5, the very byte of the first of them. -/
theorem reserve_grants_committed_region :
    ring_buff_create true true (some ⟨true, 10, 0, false⟩) =
      (RING_BUFF_ERR_OK, some (pull_buffer 10)) ∧
    ((fifo_run (fifo_init (pull_buffer 10)) run_wrap_onto_read).map fun s =>
        (s.reserved, s.committed.map fun c => c.reg, fifo_live s, s.obj.read, s.obj.write,
          (ring_buff_reserve s.obj 1).granted)) =
      some ([], [(5, 1), (0, 5)], [(5, 1), (0, 5)], 5, 5, some 5) ∧
    region_disjoint (5, 1) (5, 1) = false :=
  ⟨by decide, rfl, by decide⟩

/-- C2, evaluated: the run `run_clobber` on a created 10-byte pull-mode buffer is
allowed at every step, no reserve waits, at most 7 bytes are live at any time; the
second read is issued for the chunk holding the byte `2` and finds the byte `4` in
the region it returns, because the fourth reservation was granted on that region
before the chunk was read. -/
theorem read_returns_overwritten_bytes :
    fifo_within (fifo_init (pull_buffer 10)) run_clobber 7 = true ∧
    ((fifo_run (fifo_init (pull_buffer 10)) run_clobber).map fun s =>
        s.reads.map fun r => (r.expected.data, r.err, r.got, r.bytes)) =
      some [([1, 1, 1, 1, 1], RING_BUFF_ERR_OK, (0, 5), [1, 1, 1, 1, 1]),
            ([2], RING_BUFF_ERR_OK, (5, 1), [4])] := by
  decide

/-- C3, evaluated: in the run `run_second_wrap` on a created 4-byte pull-mode buffer,
every reserve is granted at once, every commit returns `RING_BUFF_ERR_OK` and every
read is made with `acc_size` at least the size asked; the second read is issued for
the chunk reserved at `(3,1)` and returns `RING_BUFF_ERR_OK` with the region `(0,1)`:
the fourth reservation wrapped a second time and moved the end-of-data marker onto
the accumulate cursor. -/
theorem read_returns_other_region :
    ring_buff_create true true (some ⟨true, 4, 0, false⟩) =
      (RING_BUFF_ERR_OK, some (pull_buffer 4)) ∧
    ((fifo_run (fifo_init (pull_buffer 4)) run_second_wrap).map fun s =>
        s.reads.map fun r => (r.expected.reg, r.err, r.got)) =
      some [((0, 3), RING_BUFF_ERR_OK, (0, 3)), ((3, 1), RING_BUFF_ERR_OK, (0, 1))] := by
  decide

/-- C4, evaluated: with the callback `notify_free`, the run `run_push_pairs` (capacity
10, threshold 5) and the run `run_push_header_data` (capacity 4, threshold 2) have
every reserve granted at once; in both the last commit returns
`RING_BUFF_ERR_GENERAL` without a notification and the flush delivers a window longer
than the storage, so the windows do not cover the committed regions. -/
theorem push_windows_differ_from_regions :
    ring_buff_create true true (some ⟨true, 10, 5, true⟩) =
      (RING_BUFF_ERR_OK, some (push_buffer 10 5)) ∧
    ((push_run (push_init (push_buffer 10 5)) run_push_pairs).map fun s =>
        (s.regions, s.windows, s.errs)) =
      some ([(0, 6), (6, 0), (0, 6), (0, 6)], [(0, 0), (0, 6), (6, 0), (0, 12)],
        [RING_BUFF_ERR_OK, RING_BUFF_ERR_OK, RING_BUFF_ERR_OK, RING_BUFF_ERR_GENERAL,
         RING_BUFF_ERR_OK]) ∧
    ((push_run (push_init (push_buffer 4 2)) run_push_header_data).map fun s =>
        (s.regions, s.windows, s.errs)) =
      some ([(0, 1), (1, 2), (3, 1), (0, 3), (0, 2)], [(0, 1), (1, 2), (3, 1), (0, 5)],
        [RING_BUFF_ERR_OK, RING_BUFF_ERR_OK, RING_BUFF_ERR_OK, RING_BUFF_ERR_OK,
         RING_BUFF_ERR_GENERAL, RING_BUFF_ERR_OK]) ∧
    ([((0 : Int), 0), (0, 6), (6, 0), (0, 12)].flatMap region_offsets ≠
      [((0 : Int), 6), (6, 0), (0, 6), (0, 6)].flatMap region_offsets) ∧
    ([((0 : Int), 1), (1, 2), (3, 1), (0, 5)].flatMap region_offsets ≠
      [((0 : Int), 1), (1, 2), (3, 1), (0, 3), (0, 2)].flatMap region_offsets) := by
  decide

/-- A `uint32_t` minus itself is zero. -/
theorem u32_sub_self (a : Nat) : u32_sub a a = 0 := by
  unfold u32_sub UINT32_MOD
  omega

/-- A `uint32_t` subtraction that does not underflow is the subtraction. -/
theorem u32_sub_of_le (a b : Nat) (ha : a < UINT32_MOD) (hb : b ≤ a) :
    u32_sub a b = a - b := by
  unfold u32_sub
  unfold UINT32_MOD at *
  omega

/-- The plain part of a read, when the buffer is not stopped short of the size. -/
theorem read_plain_ok (obj : ring_buff_obj) (size : Nat)
    (h : ¬ (obj.state = RING_BUFF_STATE_STOPPED ∧ size > obj.acc_size)) :
    ring_buff_read_plain obj size =
      .ret RING_BUFF_ERR_OK (some obj.acc) (some size)
        { obj with acc_size := u32_sub obj.acc_size size, acc := obj.acc + (size : Int) } := by
  simp only [ring_buff_read_plain, h, decide_False, Bool.false_eq_true, reduceIte]

/-- The plain part of a read, when the buffer is stopped short of the size. -/
theorem read_plain_short (obj : ring_buff_obj) (size : Nat)
    (h : obj.state = RING_BUFF_STATE_STOPPED ∧ size > obj.acc_size) :
    ring_buff_read_plain obj size =
      .ret RING_BUFF_ERR_PERM (some obj.acc) (some obj.acc_size)
        { obj with acc_size := u32_sub obj.acc_size obj.acc_size
                   acc := obj.acc + (obj.acc_size : Int) } := by
  simp only [ring_buff_read_plain, h, decide_True, reduceIte, and_self]

/-- The body of a read that crosses no end-of-data marker is its plain part. -/
theorem read_serve_uncrossed (obj : ring_buff_obj) (size : Nat)
    (h : obj.eod = none ∨ ∃ e, obj.eod = some e ∧ obj.acc + (size : Int) ≤ e) :
    ring_buff_read_serve obj size = ring_buff_read_plain obj size := by
  unfold ring_buff_read_serve
  split
  · rename_i e he
    rcases h with hn | ⟨e2, he2, hle⟩
    · rw [hn] at he
      cases he
    · rw [he2] at he
      cases he
      rw [if_neg (not_lt.mpr hle)]
  · rfl

/-- The body of a read that crosses the end-of-data marker. -/
theorem read_serve_crossed (obj : ring_buff_obj) (size : Nat) (e : Int)
    (h : obj.eod = some e) (hc : obj.acc + (size : Int) > e) :
    ring_buff_read_serve obj size =
      if u32_of_diff (e - obj.acc) = 0 then
        .ret RING_BUFF_ERR_OK (some 0) (some size)
          { obj with acc := (0 : Int) + (size : Int)
                     acc_size := u32_sub obj.acc_size size
                     eod := none }
      else
        .ret RING_BUFF_ERR_OK (some obj.acc) (some (u32_of_diff (e - obj.acc)))
          { obj with acc := 0
                     acc_size := u32_sub obj.acc_size (u32_of_diff (e - obj.acc))
                     eod := none } := by
  unfold ring_buff_read_serve
  split
  · rename_i e2 he
    rw [h] at he
    cases he
    rw [if_pos hc]
  · rename_i he
    rw [h] at he
    cases he

/-- C9, as stated, fails: on the stopped buffer `stopped_across_marker` 30 bytes are
accumulated, 10 before the end-of-data marker at 90 and 20 at the start; a read of 50
bytes returns `RING_BUFF_ERR_OK` with the 10 bytes before the marker and leaves
`acc_size` at 20, where the claim has 30 bytes, `acc_size` 0 and
`RING_BUFF_ERR_PERM`. -/
theorem stopped_read_stops_at_marker :
    (stopped_across_marker.map fun o => (o.size, o.state, o.acc_size, o.acc, o.eod)) =
      some (100, RING_BUFF_STATE_STOPPED, 30, 80, some 90) ∧
    (stopped_across_marker.map fun o =>
        ((ring_buff_read o 50).status, (ring_buff_read o 50).obj.acc_size)) =
      some (some (RING_BUFF_ERR_OK, some 80, some 10), 20) :=
  ⟨by decide, by decide⟩

/-- C9, amended: on a stopped buffer a read of a size that fits never waits; it
returns `RING_BUFF_ERR_OK` when `size ≤ acc_size`; when `size > acc_size` and the read
does not cross an end-of-data marker, it serves the `acc_size` bytes that remain at
the accumulate cursor, sets `acc_size` to 0 and returns `RING_BUFF_ERR_PERM`; when it
crosses the marker with `r > 0` bytes before it, `r ≤ acc_size`, it serves those `r`
bytes with `RING_BUFF_ERR_OK`, moves the accumulate cursor to the start, clears the
marker and takes `r` off `acc_size`. -/
theorem read_on_stopped (obj : ring_buff_obj) (size : Nat)
    (hsize : size ≤ obj.size) (hst : obj.state = RING_BUFF_STATE_STOPPED) :
    (∀ o, ring_buff_read obj size ≠ .wait o) ∧
    (size ≤ obj.acc_size →
      ∃ buff read o, ring_buff_read obj size = .ret RING_BUFF_ERR_OK buff read o) ∧
    (size > obj.acc_size →
      (obj.eod = none ∨ ∃ e, obj.eod = some e ∧ obj.acc + (size : Int) ≤ e) →
      ring_buff_read obj size =
        .ret RING_BUFF_ERR_PERM (some obj.acc) (some obj.acc_size)
          { obj with acc_size := 0, acc := obj.acc + (obj.acc_size : Int) }) ∧
    (∀ e, size > obj.acc_size → obj.eod = some e → obj.acc + (size : Int) > e →
      u32_of_diff (e - obj.acc) ≠ 0 → u32_of_diff (e - obj.acc) ≤ obj.acc_size →
      obj.acc_size < UINT32_MOD →
      ring_buff_read obj size =
        .ret RING_BUFF_ERR_OK (some obj.acc) (some (u32_of_diff (e - obj.acc)))
          { obj with acc := 0, acc_size := obj.acc_size - u32_of_diff (e - obj.acc)
                     eod := none }) := by
  have h1 : ¬ size > obj.size := Nat.not_lt.mpr hsize
  have hread : ring_buff_read obj size = ring_buff_read_serve obj size := by
    simp [ring_buff_read, ring_buff_read_loop, h1, hst]
  rw [hread]
  refine ⟨?_, ?_, ?_, ?_⟩
  · intro o
    unfold ring_buff_read_serve ring_buff_read_plain
    split <;> dsimp only <;> (try split_ifs) <;> nofun
  · intro hle
    have h2 : ¬ (obj.state = RING_BUFF_STATE_STOPPED ∧ size > obj.acc_size) :=
      fun c => absurd c.2 (Nat.not_lt.mpr hle)
    unfold ring_buff_read_serve
    rw [read_plain_ok obj size h2]
    split <;> (try dsimp only) <;> (try split_ifs) <;> exact ⟨_, _, _, rfl⟩
  · intro hgt hno
    rw [read_serve_uncrossed obj size hno, read_plain_short obj size ⟨hst, hgt⟩,
      u32_sub_self]
  · intro e _ he hcross hr hrle hacc
    rw [read_serve_crossed obj size e he hcross, if_neg hr, u32_sub_of_le _ _ hacc hrle]

/-- Witness of the amended C9: 30 bytes committed, stop, read of 50 bytes. -/
theorem read_on_stopped_witness :
    50 ≤ stopped_with_30.size ∧ stopped_with_30.state = RING_BUFF_STATE_STOPPED ∧
    50 > stopped_with_30.acc_size ∧ stopped_with_30.eod = none ∧
    ring_buff_read stopped_with_30 50 =
      .ret RING_BUFF_ERR_PERM (some 0) (some 30)
        { stopped_with_30 with acc_size := 0, acc := 30 } :=
  ⟨by decide, by decide, by decide, by decide,
    (read_on_stopped stopped_with_30 50 (by decide) (by decide)).2.2.1 (by decide)
      (Or.inl (by decide))⟩

/-- C10, evaluated: on the canceled buffer `canceled_with_4` (capacity 1024, 4 bytes
committed before the cancel) a read of 4 bytes returns `RING_BUFF_ERR_OK` with the
region `(0, 4)`, moves the accumulate cursor to 4 and takes the 4 bytes off
`acc_size`. -/
theorem read_after_cancel_is_served :
    (canceled_with_4.size, canceled_with_4.state, canceled_with_4.acc_size) =
      (1024, RING_BUFF_STATE_CANCELED, 4) ∧
    (ring_buff_read canceled_with_4 4).status = some (RING_BUFF_ERR_OK, some 0, some 4) ∧
    ((ring_buff_read canceled_with_4 4).obj.acc,
      (ring_buff_read canceled_with_4 4).obj.acc_size) = (4, 0) := by
  decide

/-- The body of a read after the wait loop always returns. -/
theorem read_serve_ne_wait (obj o : ring_buff_obj) (size : Nat) :
    ring_buff_read_serve obj size ≠ .wait o := by
  unfold ring_buff_read_serve ring_buff_read_plain
  split <;> (try dsimp only) <;> (try split_ifs) <;> nofun

/-- The wait loop of a read blocks exactly when more is asked than is accumulated and
the buffer is not stopped, and it blocks on the object as it is. -/
theorem read_loop_wait_iff (obj : ring_buff_obj) (size : Nat) :
    ((∃ o, ring_buff_read_loop obj size = .wait o) ↔
      (size > obj.acc_size ∧ obj.state ≠ RING_BUFF_STATE_STOPPED)) ∧
    (size > obj.acc_size ∧ obj.state ≠ RING_BUFF_STATE_STOPPED →
      ring_buff_read_loop obj size = .wait obj) := by
  unfold ring_buff_read_loop
  by_cases hc : size > obj.acc_size ∧ obj.state ≠ RING_BUFF_STATE_STOPPED
  · rw [if_pos hc]
    exact ⟨⟨fun _ => hc, fun _ => ⟨obj, rfl⟩⟩, fun _ => rfl⟩
  · rw [if_neg hc]
    exact ⟨⟨fun ⟨o, ho⟩ => absurd ho (read_serve_ne_wait obj o size),
      fun h => absurd h hc⟩,
      fun h => absurd h hc⟩

/-- C11: for a size that fits, `ring_buff_read` waits on `read_sem` exactly when
`size > acc_size` and the state is not stopped, leaving the object as it is; a blocked
read that is woken (the take on `read_sem` returns) and finds the buffer canceled
returns `RING_BUFF_ERR_PERM` with no region and no byte count, every field but the
taken semaphore flag unchanged; woken in another state it tests the same condition
again. -/
theorem read_waits_iff (obj : ring_buff_obj) (size : Nat) (hsize : size ≤ obj.size) :
    ((∃ o, ring_buff_read obj size = .wait o) ↔
      (size > obj.acc_size ∧ obj.state ≠ RING_BUFF_STATE_STOPPED)) ∧
    (size > obj.acc_size ∧ obj.state ≠ RING_BUFF_STATE_STOPPED →
      ring_buff_read obj size = .wait obj) ∧
    (obj.read_sem = true → obj.state = RING_BUFF_STATE_CANCELED →
      ring_buff_read_wake obj size =
        .ret RING_BUFF_ERR_PERM none none { obj with read_sem := false }) ∧
    (obj.read_sem = true → obj.state ≠ RING_BUFF_STATE_CANCELED →
      ((∃ o, ring_buff_read_wake obj size = .wait o) ↔
        (size > obj.acc_size ∧ obj.state ≠ RING_BUFF_STATE_STOPPED))) := by
  have h1 : ¬ size > obj.size := Nat.not_lt.mpr hsize
  have hread : ring_buff_read obj size = ring_buff_read_loop obj size := by
    unfold ring_buff_read
    rw [if_neg h1]
  rw [hread]
  refine ⟨(read_loop_wait_iff obj size).1, (read_loop_wait_iff obj size).2, ?_, ?_⟩
  · intro hsem hst
    have hc : ring_buff_check_state { obj with read_sem := false }
        (RING_BUFF_STATE_ACTIVE.val ||| RING_BUFF_STATE_STOPPED.val) ≠ RING_BUFF_ERR_OK :=
      fun h => (check_state_active_stopped _).1 h hst
    simp only [ring_buff_read_wake, ring_buff_binary_sem_take, hsem, reduceIte]
    rw [if_pos hc]
  · intro hsem hst
    have hc : ¬ ring_buff_check_state { obj with read_sem := false }
        (RING_BUFF_STATE_ACTIVE.val ||| RING_BUFF_STATE_STOPPED.val) ≠ RING_BUFF_ERR_OK :=
      fun h => h ((check_state_active_stopped { obj with read_sem := false }).2 hst)
    simp only [ring_buff_read_wake, ring_buff_binary_sem_take, hsem, reduceIte]
    rw [if_neg hc]
    exact (read_loop_wait_iff { obj with read_sem := false } size).1

/-- Witness of C11: a read of 50 bytes on an empty 100-byte buffer waits; after
`ring_buff_cancel` the woken read returns `RING_BUFF_ERR_PERM`. -/
theorem read_waits_iff_witness :
    50 ≤ (pull_buffer 100).size ∧
    ring_buff_read (pull_buffer 100) 50 = .wait (pull_buffer 100) ∧
    ring_buff_read_wake (ring_buff_cancel (pull_buffer 100)).2 50 =
      .ret RING_BUFF_ERR_PERM none none
        { (ring_buff_cancel (pull_buffer 100)).2 with read_sem := false } :=
  ⟨by decide,
    (read_waits_iff (pull_buffer 100) 50 (by decide)).2.1 (by decide),
    (read_waits_iff (ring_buff_cancel (pull_buffer 100)).2 50 (by decide)).2.2.1 rfl rfl⟩

/-- A pointer difference inside the `uint32_t` range converts to itself. -/
theorem u32_of_diff_of_range (d : Int) (h0 : 0 ≤ d) (h1 : d < (UINT32_MOD : Int)) :
    u32_of_diff d = d.toNat := by
  unfold u32_of_diff
  rw [Int.emod_eq_of_lt h0 h1]

/-- A read of a size that fits, with at least that much accumulated, does not wait. -/
theorem read_eq_serve_of_le (obj : ring_buff_obj) (size : Nat) (hsize : size ≤ obj.size)
    (hacc : size ≤ obj.acc_size) :
    ring_buff_read obj size = ring_buff_read_serve obj size := by
  have h1 : ¬ size > obj.size := Nat.not_lt.mpr hsize
  have h2 : ¬ (size > obj.acc_size ∧ obj.state ≠ RING_BUFF_STATE_STOPPED) :=
    fun c => absurd c.1 (Nat.not_lt.mpr hacc)
  unfold ring_buff_read ring_buff_read_loop
  rw [if_neg h1, if_neg h2]

/-- C12, as stated, fails for a size above the capacity: on the active buffer
`over_committed_at_marker` (capacity 10, `acc_size` 12, marker and accumulate cursor
both at 8) a read of 11 bytes crosses the marker with no byte before it, and returns
`RING_BUFF_ERR_GENERAL` with no region, the object unchanged. -/
theorem read_over_capacity_at_marker :
    (over_committed_at_marker.map fun o =>
        (o.size, o.state, o.acc_size, o.acc, o.eod)) =
      some (10, RING_BUFF_STATE_ACTIVE, 12, 8, some 8) ∧
    (over_committed_at_marker.map fun o => ring_buff_read o 11) =
      over_committed_at_marker.map fun o => .ret RING_BUFF_ERR_GENERAL none none o :=
  ⟨by decide, by decide⟩

/-- C12, amended with `size ≤ capacity`: on a buffer with `size ≤ acc_size` (active,
or in any other state), the end-of-data marker set at `e` and `acc + size > e`: if
`r = e - acc > 0` the read returns `RING_BUFF_ERR_OK` with the region at the
accumulate cursor and `r` bytes, fewer than asked, moves the accumulate cursor to the
start and takes `r` off `acc_size`; if `r = 0` it returns `RING_BUFF_ERR_OK` with the
region at the start and `size` bytes, moves the accumulate cursor to `size` and takes
`size` off `acc_size`; in both cases the marker is cleared and nothing else changes. -/
theorem read_crossing_marker (obj : ring_buff_obj) (size : Nat) (e : Int)
    (hsize : size ≤ obj.size)
    (hacc : size ≤ obj.acc_size) (hu32 : obj.acc_size < UINT32_MOD)
    (he : obj.eod = some e) (hcross : obj.acc + (size : Int) > e) :
    (e - obj.acc > 0 →
      (e - obj.acc).toNat < size ∧
      ring_buff_read obj size =
        .ret RING_BUFF_ERR_OK (some obj.acc) (some (e - obj.acc).toNat)
          { obj with acc := 0, acc_size := obj.acc_size - (e - obj.acc).toNat
                     eod := none }) ∧
    (e - obj.acc = 0 →
      ring_buff_read obj size =
        .ret RING_BUFF_ERR_OK (some 0) (some size)
          { obj with acc := (size : Int), acc_size := obj.acc_size - size
                     eod := none }) := by
  rw [read_eq_serve_of_le obj size hsize hacc, read_serve_crossed obj size e he hcross]
  constructor
  · intro hr
    have hlt : (e - obj.acc).toNat < size := by omega
    have hrange : e - obj.acc < (UINT32_MOD : Int) := by
      have : (obj.acc_size : Int) < (UINT32_MOD : Int) := by exact_mod_cast hu32
      omega
    have hconv := u32_of_diff_of_range (e - obj.acc) (le_of_lt hr) hrange
    have hne : (e - obj.acc).toNat ≠ 0 := by omega
    rw [hconv, if_neg hne, u32_sub_of_le _ _ hu32 (by omega)]
    exact ⟨hlt, rfl⟩
  · intro hr
    have hz : u32_of_diff (e - obj.acc) = 0 := by
      rw [hr]
      rfl
    rw [if_pos hz, u32_sub_of_le _ _ hu32 hacc, zero_add]

/-- Witness of the amended C12: on `one_before_marker` a read of 3 bytes returns the
one byte before the marker; on `on_marker` a read of 4 bytes returns the 4 bytes at
the start. Both objects are left by runs on a created 10-byte buffer. -/
theorem read_crossing_marker_witness :
    ((fifo_run (fifo_init (pull_buffer 10)) run_one_before_marker).map fun s => s.obj) =
      some one_before_marker ∧
    ((fifo_run (fifo_init (pull_buffer 10)) run_on_marker).map fun s => s.obj) =
      some on_marker ∧
    ring_buff_read one_before_marker 3 =
      .ret RING_BUFF_ERR_OK (some 8) (some 1)
        { one_before_marker with acc := 0, acc_size := 4, eod := none } ∧
    ring_buff_read on_marker 4 =
      .ret RING_BUFF_ERR_OK (some 0) (some 4)
        { on_marker with acc := 4, acc_size := 0, eod := none } :=
  ⟨by decide, by decide,
    ((read_crossing_marker one_before_marker 3 9 (by decide) (by decide) (by decide) rfl
      (by decide)).1 (by decide)).2,
    (read_crossing_marker on_marker 4 8 (by decide) (by decide) (by decide) rfl
      (by decide)).2 (by decide)⟩

/-- C13, as stated, fails for a size above the capacity: on the active buffer
`over_committed` (capacity 10, `acc_size` 12, no marker) a read of 11 bytes returns
`RING_BUFF_ERR_GENERAL` with no region, the object unchanged. -/
theorem read_over_capacity :
    (over_committed.size, over_committed.state, over_committed.acc_size,
      over_committed.eod) = (10, RING_BUFF_STATE_ACTIVE, 12, none) ∧
    ring_buff_read over_committed 11 =
      .ret RING_BUFF_ERR_GENERAL none none over_committed :=
  ⟨by decide, by decide⟩

/-- C13, amended with `size ≤ capacity`: on an active buffer with `size ≤ acc_size`,
when no end-of-data marker is set or `acc + size` does not pass it, the read returns
`RING_BUFF_ERR_OK` with the region at the old accumulate cursor and exactly `size`
bytes, advances the accumulate cursor by `size`, takes `size` off `acc_size` and
leaves every other field (read and write cursors, marker, state) as it was. -/
theorem read_plain_active (obj : ring_buff_obj) (size : Nat)
    (hsize : size ≤ obj.size) (hst : obj.state = RING_BUFF_STATE_ACTIVE)
    (hacc : size ≤ obj.acc_size) (hu32 : obj.acc_size < UINT32_MOD)
    (heod : obj.eod = none ∨ ∃ e, obj.eod = some e ∧ obj.acc + (size : Int) ≤ e) :
    ring_buff_read obj size =
      .ret RING_BUFF_ERR_OK (some obj.acc) (some size)
        { obj with acc_size := obj.acc_size - size, acc := obj.acc + (size : Int) } := by
  have hns : ¬ (obj.state = RING_BUFF_STATE_STOPPED ∧ size > obj.acc_size) := by
    rw [hst]
    exact fun c => absurd c.1 (by decide)
  rw [read_eq_serve_of_le obj size hsize hacc, read_serve_uncrossed obj size heod,
    read_plain_ok obj size hns, u32_sub_of_le _ _ hu32 hacc]

/-- Witness of the amended C13: 4 bytes committed on a 1024-byte buffer, read of 4. -/
theorem read_plain_active_witness :
    ring_buff_read
        (ring_buff_commit no_notify (ring_buff_reserve (pull_buffer 1024) 4).obj 0 4).obj 4 =
      .ret RING_BUFF_ERR_OK (some 0) (some 4)
        { pull_buffer 1024 with write := 4, acc := 4, acc_size := 0 } :=
  read_plain_active
    (ring_buff_commit no_notify (ring_buff_reserve (pull_buffer 1024) 4).obj 0 4).obj 4
    (by decide) (by decide) (by decide) (by decide) (Or.inl (by decide))

/-- C14, evaluated: on the 10-byte pull-mode buffer `pull_with_5` (`acc_size` 5) a
commit of `4294967295` bytes returns `RING_BUFF_ERR_OK` and leaves `acc_size` at 4:
the 32-bit sum wraps below the capacity, while the sum in the natural numbers,
`4294967300`, exceeds it. -/
theorem commit_wraps_past_capacity_check :
    (pull_with_5.size, pull_with_5.accumulate, pull_with_5.acc_size) = (10, 0, 5) ∧
    4294967295 < UINT32_MOD ∧
    pull_with_5.acc_size + 4294967295 > pull_with_5.size ∧
    ((ring_buff_commit no_notify pull_with_5 0 4294967295).err,
      (ring_buff_commit no_notify pull_with_5 0 4294967295).obj.acc_size) =
      (RING_BUFF_ERR_OK, 4) :=
  ⟨by decide, by decide, by decide, by decide⟩

/-- C15, evaluated: on the stopped buffer `stopped_on_marker` (capacity 100, 30 bytes
accumulated, reached by calls that all returned `RING_BUFF_ERR_OK`) a read of 50
bytes returns `RING_BUFF_ERR_OK` with 50 bytes at the start and leaves `acc_size` at
`30 - 50` modulo `2^32`, above the capacity. -/
theorem read_leaves_acc_size_above_capacity :
    (stopped_on_marker.map fun o => (o.size, o.state, o.acc_size, o.acc, o.eod)) =
      some (100, RING_BUFF_STATE_STOPPED, 30, 80, some 80) ∧
    (stopped_on_marker.map fun o =>
        ((ring_buff_read o 50).status, (ring_buff_read o 50).obj.acc_size)) =
      some (some (RING_BUFF_ERR_OK, some 0, some 50), 4294967276) ∧
    (stopped_on_marker.map fun o =>
        decide ((ring_buff_read o 50).obj.acc_size ≤ (ring_buff_read o 50).obj.size)) =
      some false :=
  ⟨by decide, by decide, by decide⟩

/-- A commit whose sum stays within a capacity that is a `uint32_t` does not wrap. -/
theorem u32_add_of_fit (a b cap : Nat) (hfit : a + b ≤ cap) (hcap : cap < UINT32_MOD) :
    u32_add a b = a + b := by
  unfold u32_add
  exact Nat.mod_eq_of_lt (lt_of_le_of_lt hfit hcap)

/-- C16: when `accumulate` is 0 or no callback is set, and `acc_size + size` is within
the capacity, `ring_buff_commit` returns `RING_BUFF_ERR_OK`, invokes no callback, and
leaves the object as it was but for `acc_size`, increased by `size`, and the read
semaphore, which is up; the result depends neither on the `buff` argument nor on the
callback. -/
theorem commit_pull_mode (notify : ring_buff_notify_t) (obj : ring_buff_obj) (buff : Int)
    (size : Nat) (hmode : obj.accumulate = 0 ∨ obj.notify_func = false)
    (hfit : obj.acc_size + size ≤ obj.size) (hu32 : obj.size < UINT32_MOD) :
    ring_buff_commit notify obj buff size =
      { err := RING_BUFF_ERR_OK
        obj := { obj with acc_size := obj.acc_size + size, read_sem := true }
        window := none } := by
  have hadd := u32_add_of_fit _ _ _ hfit hu32
  have h1 : ¬ obj.acc_size + size > obj.size := Nat.not_lt.mpr hfit
  have h2 : ¬ (obj.accumulate ≠ 0 ∧ obj.notify_func = true) := by
    rcases hmode with h | h
    · exact fun c => c.1 h
    · rw [h]
      exact fun c => absurd c.2 (by decide)
  unfold ring_buff_commit
  dsimp only
  rw [hadd, if_neg h1, if_neg h2]
  rfl

/-- Witness of C16: a commit of 4 bytes on a 1024-byte buffer without accumulation. -/
theorem commit_pull_mode_witness :
    ring_buff_commit no_notify (ring_buff_reserve (pull_buffer 1024) 4).obj 0 4 =
      { err := RING_BUFF_ERR_OK
        obj := { pull_buffer 1024 with write := 4, acc_size := 4, read_sem := true }
        window := none } :=
  commit_pull_mode no_notify (ring_buff_reserve (pull_buffer 1024) 4).obj 0 4
    (Or.inl (by decide)) (by decide) (by decide)

/-- C17, as stated, fails when the window ends exactly on the physical end: after the
run `run_push_near_end` (capacity 10, threshold 5) the accumulate cursor is 8 with one
byte accumulated; the commit of one more byte brings `acc + acc_size` to 10, the
capacity, with `acc_size` 2 below the threshold, and returns `RING_BUFF_ERR_OK`
without invoking the callback. -/
theorem commit_at_exact_end_does_not_notify :
    ((push_run (push_init (push_buffer 10 5)) run_push_near_end).map fun s =>
        (s.obj.size, s.obj.accumulate, s.obj.notify_func, s.obj.acc, s.obj.acc_size,
          s.reserved)) =
      some (10, 5, true, 8, 1, [(9, 1)]) ∧
    ((push_run (push_init (push_buffer 10 5)) run_push_near_end).map fun s =>
        ((ring_buff_commit notify_free s.obj 9 1).err,
          (ring_buff_commit notify_free s.obj 9 1).window,
          (ring_buff_commit notify_free s.obj 9 1).obj.acc,
          (ring_buff_commit notify_free s.obj 9 1).obj.acc_size)) =
      some (RING_BUFF_ERR_OK, none, 8, 2) :=
  ⟨rfl, by decide⟩

/-- C17, amended with a strict comparison: in push mode (`accumulate` not 0 and a
callback set), a commit that passes the capacity check invokes the callback if and
only if, after adding `size`, `acc + acc_size` is beyond the physical end of the
storage (`> capacity`) or `acc_size ≥ accumulate`; when neither holds it returns
`RING_BUFF_ERR_OK` without invoking the callback, only `acc_size` changed. -/
theorem commit_push_notifies_iff (notify : ring_buff_notify_t) (obj : ring_buff_obj)
    (buff : Int) (size : Nat)
    (hacc : obj.accumulate ≠ 0) (hcb : obj.notify_func = true)
    (hcap : u32_add obj.acc_size size ≤ obj.size) :
    ((ring_buff_commit notify obj buff size).window ≠ none ↔
      (obj.acc + (u32_add obj.acc_size size : Int) > (obj.size : Int) ∨
        u32_add obj.acc_size size ≥ obj.accumulate)) ∧
    (¬ (obj.acc + (u32_add obj.acc_size size : Int) > (obj.size : Int) ∨
        u32_add obj.acc_size size ≥ obj.accumulate) →
      ring_buff_commit notify obj buff size =
        { err := RING_BUFF_ERR_OK
          obj := { obj with acc_size := u32_add obj.acc_size size }
          window := none }) := by
  have h1 : ¬ u32_add obj.acc_size size > obj.size := Nat.not_lt.mpr hcap
  have h2 : obj.accumulate ≠ 0 ∧ obj.notify_func = true := ⟨hacc, hcb⟩
  unfold ring_buff_commit ring_buff_handle_acc
  dsimp only
  rw [if_neg h1, if_pos h2, zero_add]
  by_cases hend : obj.acc + (u32_add obj.acc_size size : Int) > (obj.size : Int)
  · rw [if_pos hend]
    exact ⟨⟨fun _ => Or.inl hend, fun _ => nofun⟩, fun c => absurd (Or.inl hend) c⟩
  · rw [if_neg hend]
    by_cases hthr : u32_add obj.acc_size size ≥ obj.accumulate
    · rw [if_pos hthr]
      exact ⟨⟨fun _ => Or.inr hthr, fun _ => nofun⟩, fun c => absurd (Or.inr hthr) c⟩
    · rw [if_neg hthr]
      refine ⟨⟨fun c => absurd rfl c, fun c => ?_⟩, fun _ => rfl⟩
      rcases c with c | c
      · exact absurd c hend
      · exact absurd c hthr

/-- Witness of the amended C17: on a created push-mode buffer (capacity 10, threshold
5) the commit of the first 4 bytes does not notify. -/
theorem commit_push_notifies_iff_witness :
    ring_buff_commit notify_free (ring_buff_reserve (push_buffer 10 5) 4).obj 0 4 =
      { err := RING_BUFF_ERR_OK
        obj := { push_buffer 10 5 with write := 4, acc_size := 4 }
        window := none } :=
  (commit_push_notifies_iff notify_free (ring_buff_reserve (push_buffer 10 5) 4).obj 0 4
    (by decide) (by decide) (by decide)).2 (by decide)

/-- The offsets of a region, from its start and the indices below its length. -/
theorem region_offsets_eq_map (p : Int) (n : Nat) :
    region_offsets (p, n) = (List.range n).map (fun i : Nat => p + (i : Int)) := by
  have h : ∀ l : List Nat,
      List.map (fun i : Int => p + i) (l.flatMap fun a => [(a : Int)]) =
        l.map (fun i : Nat => p + (i : Int)) := by
    intro l
    induction l with
    | nil => rfl
    | cons a t ih =>
      rw [List.flatMap_cons, List.map_append, ih]
      rfl
  exact h (List.range n)

/-- Two adjacent regions hold the offsets of the region they make up. -/
theorem region_offsets_append (p : Int) (m n : Nat) :
    region_offsets (p, m) ++ region_offsets (p + (m : Int), n) = region_offsets (p, m + n) := by
  rw [region_offsets_eq_map, region_offsets_eq_map, region_offsets_eq_map, List.range_add,
    List.map_append, List.map_map]
  congr 1
  apply List.map_congr_left
  intro i _
  simp only [Function.comp_apply, Nat.cast_add]
  omega

/-- C18, as stated, fails: on the buffer created with capacity 4096 and threshold 1024,
with the callback `notify_free`, the ten pairs of `run_ten_pairs` commit the regions
`(200 k, 200)` for `k < 10`, every call returning `RING_BUFF_ERR_OK`, and the callback
is invoked once, by the sixth commit, with the window `(0, 1000)`; 1000 bytes remain
accumulated at offset 1000. -/
theorem ten_commits_notify_once :
    ring_buff_create true true (some ⟨true, 4096, 1024, true⟩) =
      (RING_BUFF_ERR_OK, some (push_buffer 4096 1024)) ∧
    ((push_run (push_init (push_buffer 4096 1024)) run_ten_pairs).map fun s =>
        (s.regions, s.errs)) =
      some ((List.range 10).map (fun k => (((200 * k : Nat) : Int), 200)),
        List.replicate 10 RING_BUFF_ERR_OK) ∧
    ((push_run (push_init (push_buffer 4096 1024)) run_ten_pairs).map fun s =>
        (s.windows, s.obj.acc, s.obj.acc_size)) =
      some ([(0, 1000)], 1000, 1000) ∧
    ((push_run (push_init (push_buffer 4096 1024)) (run_ten_pairs.take 12)).map fun s =>
        s.windows) = some [(0, 1000)] ∧
    ((push_run (push_init (push_buffer 4096 1024)) (run_ten_pairs.take 11)).map fun s =>
        s.windows) = some [] :=
  ⟨by decide, by decide, by decide, by decide, by decide⟩

/-- C18, amended: the ten pairs of `run_ten_pairs` invoke the callback once, with the
window `(0, 1000)`, and a `ring_buff_flush` after them invokes it a second time, with
the window `(1000, 1000)`; the two windows, in order, cover the offsets `[0, 2000)`,
all the bytes committed. -/
theorem ten_commits_and_flush_deliver_all :
    ((push_run (push_init (push_buffer 4096 1024)) run_ten_pairs).map fun s =>
        s.windows) = some [(0, 1000)] ∧
    ((push_run (push_init (push_buffer 4096 1024)) (run_ten_pairs ++ [.flush])).map fun s =>
        (s.windows, s.errs)) =
      some ([(0, 1000), (1000, 1000)], List.replicate 11 RING_BUFF_ERR_OK) ∧
    [((0 : Int), 1000), (1000, 1000)].flatMap region_offsets = region_offsets (0, 2000) := by
  refine ⟨by decide, by decide, ?_⟩
  have h := region_offsets_append 0 1000 1000
  simpa using h

/-- C19: `ring_buff_free`, in any state and for any region and size, returns
`RING_BUFF_ERR_OK`, sets the read cursor to `buff + size`, leaves the write semaphore
up and every other field as it was; nothing is compared with an earlier read. -/
theorem free_sets_read_cursor (obj : ring_buff_obj) (buff : Int) (size : Nat) :
    ring_buff_free obj buff size =
      (RING_BUFF_ERR_OK, { obj with read := buff + (size : Int), write_sem := true }) :=
  rfl

/-- C20, evaluated: on buffers created with no threshold but a callback (`accumulate`
0, or a threshold above half the capacity, which is turned off), and on a buffer
created with a threshold but no callback, `ring_buff_flush` returns
`RING_BUFF_ERR_OK`, not `RING_BUFF_ERR_GENERAL`; it invokes no callback. -/
theorem flush_half_configured_is_ok :
    ((ring_buff_create true true (some ⟨true, 10, 0, true⟩)).2.map fun o =>
        (o.accumulate, o.notify_func, (ring_buff_flush notify_free o).err,
          (ring_buff_flush notify_free o).window)) =
      some (0, true, RING_BUFF_ERR_OK, none) ∧
    ((ring_buff_create true true (some ⟨true, 10, 6, true⟩)).2.map fun o =>
        (o.accumulate, o.notify_func, (ring_buff_flush notify_free o).err,
          (ring_buff_flush notify_free o).window)) =
      some (0, true, RING_BUFF_ERR_OK, none) ∧
    ((ring_buff_create true true (some ⟨true, 10, 3, false⟩)).2.map fun o =>
        (o.accumulate, o.notify_func, (ring_buff_flush notify_free o).err,
          (ring_buff_flush notify_free o).window)) =
      some (3, false, RING_BUFF_ERR_OK, none) :=
  ⟨by decide, by decide, by decide⟩

/-- C21: on a push-mode buffer (`accumulate` not 0 and a callback set), with `acc_size`
not 0 `ring_buff_flush` invokes the callback once, on the object as it is, with the
window `(acc, acc_size)`, whatever the threshold, and returns the callback's code; with
`acc_size` 0 it returns `RING_BUFF_ERR_OK` without invoking it and leaves the object
as it is; with the callback `notify_free`, which only frees, a second flush delivers
the same window again. -/
theorem flush_delivers_window (notify : ring_buff_notify_t) (obj : ring_buff_obj)
    (hacc : obj.accumulate ≠ 0) (hcb : obj.notify_func = true) :
    (obj.acc_size ≠ 0 →
      ring_buff_flush notify obj =
        { err := (notify obj obj.acc obj.acc_size).1
          obj := (notify obj obj.acc obj.acc_size).2
          window := some (obj.acc, obj.acc_size) }) ∧
    (obj.acc_size = 0 →
      ring_buff_flush notify obj =
        { err := RING_BUFF_ERR_OK, obj := obj, window := none }) ∧
    (obj.acc_size ≠ 0 →
      (ring_buff_flush notify_free obj).window = some (obj.acc, obj.acc_size) ∧
      (ring_buff_flush notify_free (ring_buff_flush notify_free obj).obj).window =
        some (obj.acc, obj.acc_size)) := by
  have h1 : ¬ (obj.accumulate = 0 ∧ obj.notify_func = false) := fun c => hacc c.1
  have key : ∀ (f : ring_buff_notify_t) (o : ring_buff_obj), o.accumulate ≠ 0 →
      o.notify_func = true → o.acc_size ≠ 0 →
      ring_buff_flush f o =
        { err := (f o o.acc o.acc_size).1, obj := (f o o.acc o.acc_size).2
          window := some (o.acc, o.acc_size) } := by
    intro f o ha hc hs
    have h1 : ¬ (o.accumulate = 0 ∧ o.notify_func = false) := fun c => ha c.1
    have h2 : o.acc_size ≠ 0 ∧ o.accumulate ≠ 0 ∧ o.notify_func = true := ⟨hs, ha, hc⟩
    unfold ring_buff_flush
    rw [if_neg h1, if_pos h2]
  refine ⟨key notify obj hacc hcb, ?_, ?_⟩
  · intro hz
    have h2 : ¬ (obj.acc_size ≠ 0 ∧ obj.accumulate ≠ 0 ∧ obj.notify_func = true) :=
      fun c => c.1 hz
    unfold ring_buff_flush
    rw [if_neg h1, if_neg h2]
  · intro hs
    have e1 := key notify_free obj hacc hcb hs
    have e2 := key notify_free (ring_buff_free obj obj.acc obj.acc_size).2 hacc hcb hs
    rw [e1]
    exact ⟨rfl, by
      show (ring_buff_flush notify_free (ring_buff_free obj obj.acc obj.acc_size).2).window = _
      rw [e2]
      rfl⟩

/-- Witness of C21: two flushes of `push_with_4` deliver the window `(0, 4)` twice. -/
theorem flush_delivers_window_witness :
    (push_with_4.accumulate, push_with_4.notify_func, push_with_4.acc,
      push_with_4.acc_size) = (5, true, 0, 4) ∧
    (ring_buff_flush notify_free push_with_4).window = some (0, 4) ∧
    (ring_buff_flush notify_free (ring_buff_flush notify_free push_with_4).obj).window =
      some (0, 4) :=
  ⟨by decide,
    (flush_delivers_window notify_free push_with_4 (by decide) (by decide)).2.2 (by decide)⟩

/-- C22: `ring_buff_cancel` returns `RING_BUFF_ERR_OK`, sets the state to canceled,
leaves both semaphores up and every other field (cursors, `acc_size`, marker, size,
threshold) as it was; the storage is not part of the object and is not touched. -/
theorem cancel_sets_state_and_signals (obj : ring_buff_obj) :
    ring_buff_cancel obj =
      (RING_BUFF_ERR_OK,
        { obj with state := RING_BUFF_STATE_CANCELED, read_sem := true, write_sem := true }) :=
  rfl

/-- C23: `ring_buff_stop` returns `RING_BUFF_ERR_OK` and changes the state field only,
to stopped: both semaphore flags, all cursors, `acc_size` and the marker are as they
were. -/
theorem stop_sets_state_only (obj : ring_buff_obj) :
    ring_buff_stop obj = (RING_BUFF_ERR_OK, { obj with state := RING_BUFF_STATE_STOPPED }) ∧
    (ring_buff_stop obj).2.read_sem = obj.read_sem ∧
    (ring_buff_stop obj).2.write_sem = obj.write_sem :=
  ⟨rfl, rfl, rfl⟩

/-- C24: `ring_buff_create` returns `RING_BUFF_ERR_GENERAL` and a NULL handle when the
attribute pointer is NULL, when its buffer is NULL or when its size is 0, whether or
not an allocation would succeed; with valid attributes it returns
`RING_BUFF_ERR_NO_MEM` and a NULL handle when the object cannot be allocated; in none
of these cases is the code `RING_BUFF_ERR_OK`. -/
theorem create_fails_without_handle (malloc_ok mutex_ok : Bool) (attr : ring_buff_attr) :
    ring_buff_create malloc_ok mutex_ok none = (RING_BUFF_ERR_GENERAL, none) ∧
    (attr.buff = false ∨ attr.size = 0 →
      ring_buff_create malloc_ok mutex_ok (some attr) = (RING_BUFF_ERR_GENERAL, none)) ∧
    (attr.buff = true → attr.size ≠ 0 →
      ring_buff_create false mutex_ok (some attr) = (RING_BUFF_ERR_NO_MEM, none)) ∧
    (attr.buff = false ∨ attr.size = 0 ∨ malloc_ok = false →
      (ring_buff_create malloc_ok mutex_ok (some attr)).1 ≠ RING_BUFF_ERR_OK ∧
      (ring_buff_create malloc_ok mutex_ok (some attr)).2 = none) := by
  refine ⟨rfl, ?_, ?_, ?_⟩
  · intro h
    have h1 : attr.size = 0 ∨ attr.buff = false := h.symm
    unfold ring_buff_create
    dsimp only
    rw [if_pos h1]
  · intro hb hs
    have h1 : ¬ (attr.size = 0 ∨ attr.buff = false) := by
      rw [hb]
      exact fun c => c.elim hs (by decide)
    unfold ring_buff_create
    dsimp only
    rw [if_neg h1, if_pos rfl]
  · intro h
    unfold ring_buff_create
    dsimp only
    by_cases h1 : attr.size = 0 ∨ attr.buff = false
    · rw [if_pos h1]
      exact ⟨by decide, rfl⟩
    · rw [if_neg h1]
      have hm : malloc_ok = false := by
        rcases h with h | h | h
        · exact absurd (Or.inr h) h1
        · exact absurd (Or.inl h) h1
        · exact h
      rw [if_pos hm]
      exact ⟨by decide, rfl⟩

/-- Witness of C24: a zero size, and a failing allocation with valid attributes. -/
theorem create_fails_without_handle_witness :
    ring_buff_create true true (some ⟨true, 0, 0, false⟩) = (RING_BUFF_ERR_GENERAL, none) ∧
    ring_buff_create false true (some ⟨true, 10, 0, false⟩) = (RING_BUFF_ERR_NO_MEM, none) :=
  ⟨(create_fails_without_handle true true ⟨true, 0, 0, false⟩).2.1 (Or.inr rfl),
    (create_fails_without_handle true true ⟨true, 10, 0, false⟩).2.2.1 rfl (by decide)⟩

/-- C25: with a non-NULL buffer and a size above 0, the allocations succeeding,
`ring_buff_create` returns `RING_BUFF_ERR_OK` and an object whose read, write and
accumulate cursors are at the start of the storage, whose state is active, whose
`acc_size` is 0, whose marker is unset, and whose size and callback are those of the
attributes; both semaphores are up. -/
theorem create_initial_object (attr : ring_buff_attr)
    (hbuff : attr.buff = true) (hsize : attr.size ≠ 0) :
    ring_buff_create true true (some attr) =
      (RING_BUFF_ERR_OK, some
        { size := attr.size
          accumulate := if attr.accumulate > attr.size / 2 then 0 else attr.accumulate
          notify_func := attr.notify_func
          read := 0, write := 0, acc := 0, eod := none, acc_size := 0
          state := RING_BUFF_STATE_ACTIVE, read_sem := true, write_sem := true }) := by
  have h1 : ¬ (attr.size = 0 ∨ attr.buff = false) := by
    rw [hbuff]
    exact fun c => c.elim hsize (by decide)
  unfold ring_buff_create
  dsimp only
  rw [if_neg h1, if_neg (by decide), if_neg (by decide)]

/-- Witness of C25: a 1024-byte storage with a threshold of 100 and a callback. -/
theorem create_initial_object_witness :
    ring_buff_create true true (some ⟨true, 1024, 100, true⟩) =
      (RING_BUFF_ERR_OK, some (push_buffer 1024 100)) :=
  create_initial_object ⟨true, 1024, 100, true⟩ rfl (by decide)

/-- The body of a read leaves the size and the threshold alone. -/
theorem read_serve_config (obj : ring_buff_obj) (size : Nat) :
    (ring_buff_read_serve obj size).obj.accumulate = obj.accumulate ∧
    (ring_buff_read_serve obj size).obj.size = obj.size := by
  unfold ring_buff_read_serve ring_buff_read_plain
  split <;> (try dsimp only) <;> (try split_ifs) <;> exact ⟨rfl, rfl⟩

/-- No operation changes the threshold or the size, the callback being one that does
not change them. -/
theorem op_run_config (notify : ring_buff_notify_t) (obj : ring_buff_obj)
    (op : ring_buff_op)
    (hcb : ∀ o b n, (notify o b n).2.accumulate = o.accumulate ∧
      (notify o b n).2.size = o.size) :
    (op.run notify obj).accumulate = obj.accumulate ∧
    (op.run notify obj).size = obj.size := by
  cases op with
  | reserve size =>
    show (ring_buff_reserve obj size).obj.accumulate = _ ∧
      (ring_buff_reserve obj size).obj.size = _
    unfold ring_buff_reserve ring_buff_reserve_direct ring_buff_reserve_wrap
    split_ifs <;> exact ⟨rfl, rfl⟩
  | reserve_wake loop size =>
    show (ring_buff_reserve_wake loop obj size).obj.accumulate = _ ∧
      (ring_buff_reserve_wake loop obj size).obj.size = _
    cases hs : obj.write_sem <;> cases loop <;>
      simp only [ring_buff_reserve_wake, ring_buff_binary_sem_take, hs,
        ring_buff_reserve_direct, ring_buff_reserve_wrap, reduceIte, Bool.false_eq_true] <;>
      (try split_ifs) <;> exact ⟨rfl, rfl⟩
  | commit buff size =>
    show (ring_buff_commit notify obj buff size).obj.accumulate = _ ∧
      (ring_buff_commit notify obj buff size).obj.size = _
    unfold ring_buff_commit ring_buff_handle_acc
    dsimp only
    split_ifs <;> first | exact ⟨rfl, rfl⟩ | exact hcb _ _ _
  | free buff size => exact ⟨rfl, rfl⟩
  | read size =>
    show (ring_buff_read obj size).obj.accumulate = _ ∧ (ring_buff_read obj size).obj.size = _
    unfold ring_buff_read ring_buff_read_loop
    split_ifs
    · exact ⟨rfl, rfl⟩
    · exact ⟨rfl, rfl⟩
    · exact read_serve_config obj size
  | read_wake size =>
    show (ring_buff_read_wake obj size).obj.accumulate = _ ∧
      (ring_buff_read_wake obj size).obj.size = _
    cases hs : obj.read_sem <;>
      simp only [ring_buff_read_wake, ring_buff_binary_sem_take, hs, ring_buff_read_loop,
        reduceIte, Bool.false_eq_true]
    · exact ⟨rfl, rfl⟩
    · split_ifs
      · exact ⟨rfl, rfl⟩
      · exact ⟨rfl, rfl⟩
      · exact read_serve_config _ size
  | flush =>
    show (ring_buff_flush notify obj).obj.accumulate = _ ∧
      (ring_buff_flush notify obj).obj.size = _
    unfold ring_buff_flush
    dsimp only
    split_ifs <;> first | exact ⟨rfl, rfl⟩ | exact hcb _ _ _
  | cancel => exact ⟨rfl, rfl⟩
  | stop => exact ⟨rfl, rfl⟩

/-- No sequence of operations changes the threshold or the size. -/
theorem run_all_config (notify : ring_buff_notify_t) (ops : List ring_buff_op)
    (hcb : ∀ o b n, (notify o b n).2.accumulate = o.accumulate ∧
      (notify o b n).2.size = o.size) (obj : ring_buff_obj) :
    (ring_buff_op.run_all notify obj ops).accumulate = obj.accumulate ∧
    (ring_buff_op.run_all notify obj ops).size = obj.size := by
  induction ops generalizing obj with
  | nil => exact ⟨rfl, rfl⟩
  | cons op rest ih =>
    have h1 := op_run_config notify obj op hcb
    have h2 := ih (op.run notify obj)
    exact ⟨h2.1.trans h1.1, h2.2.trans h1.2⟩

/-- C26: for valid attributes (non-NULL buffer, size above 0, allocations succeeding)
`ring_buff_create` returns `RING_BUFF_ERR_OK` and an object whose threshold is 0 when
`attr.accumulate > attr.size / 2` and `attr.accumulate` otherwise; so the threshold of
a created object is at most half its size; and after any sequence of operations
(reserve, commit, free, read, flush, cancel, stop, resumptions of blocked calls), the
callback being one that does not change them, threshold and size are still the same. -/
theorem create_disables_high_threshold (notify : ring_buff_notify_t) (attr : ring_buff_attr)
    (hbuff : attr.buff = true) (hsize : attr.size ≠ 0)
    (hcb : ∀ o b n, (notify o b n).2.accumulate = o.accumulate ∧
      (notify o b n).2.size = o.size) :
    ∃ obj, ring_buff_create true true (some attr) = (RING_BUFF_ERR_OK, some obj) ∧
      obj.size = attr.size ∧
      (attr.accumulate > attr.size / 2 → obj.accumulate = 0) ∧
      (¬ attr.accumulate > attr.size / 2 → obj.accumulate = attr.accumulate) ∧
      obj.accumulate ≤ obj.size / 2 ∧
      ∀ ops : List ring_buff_op,
        (ring_buff_op.run_all notify obj ops).accumulate = obj.accumulate ∧
        (ring_buff_op.run_all notify obj ops).size = obj.size ∧
        (ring_buff_op.run_all notify obj ops).accumulate ≤
          (ring_buff_op.run_all notify obj ops).size / 2 := by
  have h1 : ¬ (attr.size = 0 ∨ attr.buff = false) := by
    rw [hbuff]
    exact fun c => c.elim hsize (by decide)
  refine ⟨{ size := attr.size
            accumulate := if attr.accumulate > attr.size / 2 then 0 else attr.accumulate
            notify_func := attr.notify_func
            read := 0, write := 0, acc := 0, eod := none, acc_size := 0
            state := RING_BUFF_STATE_ACTIVE, read_sem := true, write_sem := true },
    ?_, rfl, ?_, ?_, ?_, ?_⟩
  · unfold ring_buff_create
    dsimp only
    rw [if_neg h1, if_neg (by decide), if_neg (by decide)]
  · intro h
    exact if_pos h
  · intro h
    exact if_neg h
  · show (if attr.accumulate > attr.size / 2 then 0 else attr.accumulate) ≤ attr.size / 2
    split_ifs with h
    · exact Nat.zero_le _
    · exact Nat.not_lt.mp h
  · intro ops
    obtain ⟨ha, hs⟩ := run_all_config notify ops hcb
      { size := attr.size
        accumulate := if attr.accumulate > attr.size / 2 then 0 else attr.accumulate
        notify_func := attr.notify_func
        read := 0, write := 0, acc := 0, eod := none, acc_size := 0
        state := RING_BUFF_STATE_ACTIVE, read_sem := true, write_sem := true }
    refine ⟨ha, hs, ?_⟩
    rw [ha, hs]
    show (if attr.accumulate > attr.size / 2 then 0 else attr.accumulate) ≤ attr.size / 2
    split_ifs with h
    · exact Nat.zero_le _
    · exact Nat.not_lt.mp h

/-- Witness of C26: capacity 10 with a requested threshold of 6 gives threshold 0,
still 0 after a reserve, a commit and a flush. -/
theorem create_disables_high_threshold_witness :
    ring_buff_create true true (some ⟨true, 10, 6, true⟩) =
      (RING_BUFF_ERR_OK, some (push_buffer 10 0)) ∧
    (ring_buff_op.run_all notify_free (push_buffer 10 0)
      [.reserve 4, .commit 0 4, .flush]).accumulate = 0 := by
  obtain ⟨obj, h1, _, _, _, _, h6⟩ :=
    create_disables_high_threshold notify_free ⟨true, 10, 6, true⟩ rfl (by decide)
      (fun _ _ _ => ⟨rfl, rfl⟩)
  have hobj : obj = push_buffer 10 0 := by
    have h2 : ring_buff_create true true (some ⟨true, 10, 6, true⟩) =
        (RING_BUFF_ERR_OK, some (push_buffer 10 0)) := by decide
    rw [h2] at h1
    cases h1
    rfl
  subst hobj
  exact ⟨by decide, (h6 _).1⟩

/-- C27: on a created 100-byte pull-mode buffer, the first `reserve(80)` is granted at
offset 0; after `commit(80)` the second `reserve(80)` is not granted: the call blocks
in the wrap loop. The blocked call stays blocked when it runs on while the first
message is unfreed: before the read (the first take of the semaphore returns, the
loop condition still holds; the next take blocks) and after `read(80)`. After
`free(0, 80)` (read cursor 80, semaphore up) the blocked call runs on by
`ring_buff_reserve_wake` and is granted at offset 0, with the marker at 80 and the
write cursor at 80; after `commit(80)` the next `read(80)` returns
`RING_BUFF_ERR_OK` with 80 bytes at offset 0 and clears the marker; the two reads
find the bytes of the two messages, in the order written. -/
theorem two_messages_wrap_scenario :
    ring_buff_create true true (some ⟨true, 100, 0, false⟩) =
      (RING_BUFF_ERR_OK, some (pull_buffer 100)) ∧
    ((blocking_run (blocking_init (pull_buffer 100)) (run_two_messages.take 1)).map fun s =>
        (s.pending, s.fifo.reserved.map fun c => c.reg)) = some (none, [(0, 80)]) ∧
    ((blocking_run (blocking_init (pull_buffer 100)) (run_two_messages.take 3)).map fun s =>
        (s.pending, s.fifo.reserved.map fun c => c.reg, s.fifo.obj.write_sem)) =
      some (some (.wrap, message_two), [], true) ∧
    ((blocking_run (blocking_init (pull_buffer 100)) (run_two_messages.take 4)).map fun s =>
        (s.pending, s.fifo.reserved.map fun c => c.reg, s.fifo.obj.write_sem)) =
      some (some (.wrap, message_two), [], false) ∧
    ((blocking_run (blocking_init (pull_buffer 100)) (run_two_messages.take 5)).map fun s =>
        (s.pending, s.fifo.reserved.map fun c => c.reg, s.fifo.obj.write_sem)) =
      some (some (.wrap, message_two), [], false) ∧
    ((blocking_run (blocking_init (pull_buffer 100)) (run_two_messages.take 7)).map fun s =>
        (s.pending, s.fifo.reserved.map fun c => c.reg,
          s.fifo.reads.map fun r => (r.err, r.got))) =
      some (some (.wrap, message_two), [], [(RING_BUFF_ERR_OK, (0, 80))]) ∧
    ((blocking_run (blocking_init (pull_buffer 100)) (run_two_messages.take 8)).map fun s =>
        (s.fifo.obj.read, s.fifo.obj.write_sem,
          (ring_buff_reserve_wake .wrap s.fifo.obj 80).granted)) =
      some (80, true, some 0) ∧
    ((blocking_run (blocking_init (pull_buffer 100)) (run_two_messages.take 9)).map fun s =>
        (s.pending, s.fifo.reserved.map fun c => c.reg, s.fifo.obj.eod, s.fifo.obj.write)) =
      some (none, [(0, 80)], some 80, 80) ∧
    ((blocking_run (blocking_init (pull_buffer 100)) run_two_messages).map fun s =>
        (s.fifo.reads.map fun r => (r.err, r.got), s.fifo.obj.eod, s.fifo.obj.acc_size)) =
      some ([(RING_BUFF_ERR_OK, (0, 80)), (RING_BUFF_ERR_OK, (0, 80))], none, 0) ∧
    ((blocking_run (blocking_init (pull_buffer 100)) run_two_messages).map fun s =>
        s.fifo.reads.map fun r => r.bytes) = some [message_one, message_two] :=
  ⟨by decide, rfl, rfl, rfl, rfl, rfl, by decide, rfl, rfl, by decide⟩

/-- An address inside the address range is its own value. -/
theorem ptr_val_of_range (addr_mod : Nat) (a : Int) (h0 : 0 ≤ a) (h1 : a < (addr_mod : Int)) :
    ptr_val addr_mod a = a :=
  Int.emod_eq_of_lt h0 h1

/-- When no pointer expression of `ring_buff_reserve` leaves the address range
(`obj->read - size` is not below address 0, and the cursors, the end of the storage
and `obj->write + size` are below `addr_mod`), the comparisons on addresses are the
comparisons on offsets. -/
theorem reserve_at_eq_reserve (addr_mod base : Nat) (obj : ring_buff_obj) (size : Nat)
    (hr : 0 ≤ obj.read) (hw : 0 ≤ obj.write)
    (hlow : (size : Int) ≤ (base : Int) + obj.read)
    (hread : (base : Int) + obj.read < (addr_mod : Int))
    (hwrite : (base : Int) + obj.write + (size : Int) < (addr_mod : Int))
    (hend : (base : Int) + (obj.size : Int) < (addr_mod : Int)) :
    ring_buff_reserve_at addr_mod base obj size = ring_buff_reserve obj size := by
  have e1 := ptr_val_of_range addr_mod ((base : Int) + obj.write) (by omega) (by omega)
  have e2 := ptr_val_of_range addr_mod ((base : Int) + obj.read) (by omega) (by omega)
  have e3 := ptr_val_of_range addr_mod ((base : Int) + obj.write + (size : Int)) (by omega)
    (by omega)
  have e4 := ptr_val_of_range addr_mod ((base : Int) + (obj.size : Int)) (by omega) (by omega)
  have e5 := ptr_val_of_range addr_mod ((base : Int) + obj.read - (size : Int)) (by omega)
    (by omega)
  have e6 := ptr_val_of_range addr_mod (base : Int) (by omega) (by omega)
  unfold ring_buff_reserve_at ring_buff_reserve ring_buff_reserve_direct_at
    ring_buff_reserve_direct ring_buff_reserve_wrap_at ring_buff_reserve_wrap
  rw [e1, e2, e3, e4, e5, e6]
  have c1 : ((base : Int) + obj.write + (size : Int) ≤ (base : Int) + (obj.size : Int)) ↔
      (obj.write + (size : Int) ≤ (0 : Int) + (obj.size : Int)) := by omega
  have c2 : ((base : Int) + obj.write < (base : Int) + obj.read ∧
      (base : Int) + obj.write + (size : Int) ≥ (base : Int) + obj.read) ↔
      (obj.write < obj.read ∧ obj.write + (size : Int) ≥ obj.read) := by omega
  have c3 : ((base : Int) + obj.read - (size : Int) < (base : Int) ∨
      (base : Int) + obj.read > (base : Int) + obj.write) ↔
      (obj.read - (size : Int) < 0 ∨ obj.read > obj.write) := by omega
  simp only [c1, c2, c3]

/-- Away from the low addresses the wrap branch is as the integers have it: on an
active buffer, for a size that fits the storage but not the room after the write
cursor, when no pointer expression leaves the address range, `ring_buff_reserve_at`
is granted without waiting if and only if `read ≥ size` and `read ≤ write`; it is
then granted at offset 0, the marker becomes the old write cursor and the write
cursor becomes `size`; otherwise it waits in the wrap loop. -/
theorem reserve_at_wrap_branch (addr_mod base : Nat) (obj : ring_buff_obj) (size : Nat)
    (hst : obj.state = RING_BUFF_STATE_ACTIVE) (hsize : size ≤ obj.size)
    (hwrap : obj.write + (size : Int) > (obj.size : Int))
    (hr : 0 ≤ obj.read) (hw : 0 ≤ obj.write)
    (hlow : (size : Int) ≤ (base : Int) + obj.read)
    (hread : (base : Int) + obj.read < (addr_mod : Int))
    (hwrite : (base : Int) + obj.write + (size : Int) < (addr_mod : Int))
    (hend : (base : Int) + (obj.size : Int) < (addr_mod : Int)) :
    ((∃ p o, ring_buff_reserve_at addr_mod base obj size = .ret RING_BUFF_ERR_OK (some p) o) ↔
      (obj.read ≥ (size : Int) ∧ obj.read ≤ obj.write)) ∧
    (obj.read ≥ (size : Int) ∧ obj.read ≤ obj.write →
      ring_buff_reserve_at addr_mod base obj size =
        .ret RING_BUFF_ERR_OK (some 0)
          { obj with eod := some obj.write, write := (size : Int) }) ∧
    (¬ (obj.read ≥ (size : Int) ∧ obj.read ≤ obj.write) →
      ring_buff_reserve_at addr_mod base obj size = .wait .wrap obj) := by
  rw [reserve_at_eq_reserve addr_mod base obj size hr hw hlow hread hwrite hend]
  have h1 : ¬ size > obj.size := Nat.not_lt.mpr hsize
  have h2 : ¬ ring_buff_check_state obj RING_BUFF_STATE_ACTIVE.val ≠ RING_BUFF_ERR_OK :=
    fun c => c ((check_state_active obj).2 hst)
  have h3 : ¬ obj.write + (size : Int) ≤ (0 : Int) + (obj.size : Int) := by omega
  have hres : ring_buff_reserve obj size = ring_buff_reserve_wrap obj size := by
    unfold ring_buff_reserve
    rw [if_neg h1, if_neg h2, if_neg h3]
  rw [hres]
  unfold ring_buff_reserve_wrap
  by_cases hc : obj.read - (size : Int) < 0 ∨ obj.read > obj.write
  · have hn : ¬ (obj.read ≥ (size : Int) ∧ obj.read ≤ obj.write) := by omega
    rw [if_pos hc]
    exact ⟨⟨nofun, fun c => absurd c hn⟩, fun c => absurd c hn, fun _ => rfl⟩
  · have hy : obj.read ≥ (size : Int) ∧ obj.read ≤ obj.write := by omega
    rw [if_neg hc, zero_add]
    exact ⟨⟨fun _ => hy, fun _ => ⟨_, _, rfl⟩⟩, fun _ => rfl, fun c => absurd hy c⟩

/-- The wrap branch for a storage at the address 4096 on a 64-bit target: capacity 100,
write and read cursors at 80, 80 bytes asked. -/
theorem reserve_at_wrap_branch_example :
    ring_buff_reserve_at ADDR_MOD_64 4096
        { pull_buffer 100 with read := 80, write := 80, acc := 80 } 80 =
      .ret RING_BUFF_ERR_OK (some 0)
        { pull_buffer 100 with read := 80, write := 80, acc := 80, eod := some 80 } :=
  (reserve_at_wrap_branch ADDR_MOD_64 4096
    { pull_buffer 100 with read := 80, write := 80, acc := 80 } 80
    rfl (by decide) (by decide) (by decide) (by decide) (by decide) (by decide) (by decide)
    (by decide)).2.1 (by decide)

/-- C29, evaluated for a storage at the address 16 on a 64-bit target: on a created
100-byte buffer the run `run_twenty_unread` (every call returning
`RING_BUFF_ERR_OK`, its two reserves being the same on addresses as on offsets)
leaves an active buffer with the read cursor at 30, the write cursor at 50 and the 20
committed bytes at `(30, 20)` unread. A reservation of 80 bytes takes the wrap branch;
`read ≥ size` is false in the integers (30 against 80), so the condition of the claim
fails and on offsets the call waits; but the address `obj->read - size` is
`16 + 30 - 80`, which wraps to `2^64 - 34`, not below the storage: the call is
granted at once at offset 0, with the marker at 50 and the write cursor at 80, over
the unread bytes. -/
theorem reserve_wrap_grants_at_low_address :
    ring_buff_create true true (some ⟨true, 100, 0, false⟩) =
      (RING_BUFF_ERR_OK, some (pull_buffer 100)) ∧
    ring_buff_reserve_at ADDR_MOD_64 16 (pull_buffer 100) 30 =
      ring_buff_reserve (pull_buffer 100) 30 ∧
    ((fifo_run (fifo_init (pull_buffer 100)) (run_twenty_unread.take 4)).map fun s =>
        decide (ring_buff_reserve_at ADDR_MOD_64 16 s.obj 20 = ring_buff_reserve s.obj 20)) =
      some true ∧
    ((fifo_run (fifo_init (pull_buffer 100)) run_twenty_unread).map fun s =>
        (s.obj.state, s.obj.read, s.obj.write, s.obj.acc_size,
          s.committed.map fun c => c.reg)) =
      some (RING_BUFF_STATE_ACTIVE, 30, 50, 20, [(30, 20)]) ∧
    ((fifo_run (fifo_init (pull_buffer 100)) run_twenty_unread).map fun s =>
        (decide (s.obj.write + (80 : Int) > (s.obj.size : Int)),
          decide (s.obj.read ≥ (80 : Int) ∧ s.obj.read ≤ s.obj.write),
          (ring_buff_reserve s.obj 80).waiting)) =
      some (true, false, some .wrap) ∧
    ptr_val ADDR_MOD_64 ((16 : Int) + 30 - 80) = 18446744073709551582 ∧
    ((fifo_run (fifo_init (pull_buffer 100)) run_twenty_unread).map fun s =>
        ((ring_buff_reserve_at ADDR_MOD_64 16 s.obj 80).granted,
          (ring_buff_reserve_at ADDR_MOD_64 16 s.obj 80).obj.eod,
          (ring_buff_reserve_at ADDR_MOD_64 16 s.obj 80).obj.write)) =
      some (some 0, some 50, 80) ∧
    region_disjoint (0, 80) (30, 20) = false :=
  ⟨by decide, by decide, by decide, rfl, by decide, by decide, by decide, by decide⟩

/-- C30: on an active buffer whose write cursor is not before the start of the storage,
for a size with `write + size ≤ capacity`, `ring_buff_reserve` waits exactly when
`write < read` and `write + size ≥ read`, in the direct loop and leaving the object
as it is; otherwise it returns `RING_BUFF_ERR_OK` with the region at the old write
cursor, advances the write cursor by `size` and changes nothing else; a second
reservation granted the same way right after it starts where the first one ends, and
the two regions share no byte. -/
theorem reserve_direct_branch (obj : ring_buff_obj) (size : Nat)
    (hst : obj.state = RING_BUFF_STATE_ACTIVE) (hw : 0 ≤ obj.write)
    (hfit : obj.write + (size : Int) ≤ (obj.size : Int)) :
    ((∃ loop o, ring_buff_reserve obj size = .wait loop o) ↔
      (obj.write < obj.read ∧ obj.write + (size : Int) ≥ obj.read)) ∧
    (obj.write < obj.read ∧ obj.write + (size : Int) ≥ obj.read →
      ring_buff_reserve obj size = .wait .direct obj) ∧
    (¬ (obj.write < obj.read ∧ obj.write + (size : Int) ≥ obj.read) →
      ring_buff_reserve obj size =
        .ret RING_BUFF_ERR_OK (some obj.write)
          { obj with write := obj.write + (size : Int) }) ∧
    (∀ (size2 : Nat) (p1 p2 : Int) (o1 o2 : ring_buff_obj),
      ring_buff_reserve obj size = .ret RING_BUFF_ERR_OK (some p1) o1 →
      o1.write + (size2 : Int) ≤ (o1.size : Int) →
      ring_buff_reserve o1 size2 = .ret RING_BUFF_ERR_OK (some p2) o2 →
      p1 = obj.write ∧ p2 = p1 + (size : Int) ∧
        region_disjoint (p1, size) (p2, size2) = true) := by
  have direct : ∀ (o : ring_buff_obj) (n : Nat), o.state = RING_BUFF_STATE_ACTIVE →
      0 ≤ o.write → o.write + (n : Int) ≤ (o.size : Int) →
      ring_buff_reserve o n = ring_buff_reserve_direct o n := by
    intro o n ho hw0 hf
    have h1 : ¬ n > o.size := by omega
    have h2 : ¬ ring_buff_check_state o RING_BUFF_STATE_ACTIVE.val ≠ RING_BUFF_ERR_OK :=
      fun c => c ((check_state_active o).2 ho)
    have h3 : o.write + (n : Int) ≤ (0 : Int) + (o.size : Int) := by omega
    unfold ring_buff_reserve
    rw [if_neg h1, if_neg h2, if_pos h3]
  rw [direct obj size hst hw hfit]
  by_cases hc : obj.write < obj.read ∧ obj.write + (size : Int) ≥ obj.read
  · have e : ring_buff_reserve_direct obj size = .wait .direct obj := by
      unfold ring_buff_reserve_direct
      rw [if_pos hc]
    rw [e]
    refine ⟨⟨fun _ => hc, fun _ => ⟨_, _, rfl⟩⟩, fun _ => rfl, fun c => absurd hc c, ?_⟩
    intro size2 p1 p2 o1 o2 h1
    cases h1
  · have e : ring_buff_reserve_direct obj size =
        .ret RING_BUFF_ERR_OK (some obj.write)
          { obj with write := obj.write + (size : Int) } := by
      unfold ring_buff_reserve_direct
      rw [if_neg hc]
    rw [e]
    refine ⟨⟨nofun, fun c => absurd c hc⟩, fun c => absurd c hc, fun _ => rfl, ?_⟩
    intro size2 p1 p2 o1 o2 h1 hf2 h2
    cases h1
    have hw1 : (0 : Int) ≤ obj.write + (size : Int) := by omega
    rw [direct { obj with write := obj.write + (size : Int) } size2 hst hw1 hf2] at h2
    unfold ring_buff_reserve_direct at h2
    split_ifs at h2
    cases h2
    refine ⟨rfl, rfl, ?_⟩
    unfold region_disjoint
    simp only [decide_eq_true_eq]
    right
    right
    left
    exact le_refl _

/-- Witness of C30: on a created 100-byte buffer a reservation of 8 bytes followed by
one of 20 bytes, as for a header and its data, gives the regions `(0, 8)` and
`(8, 20)`. -/
theorem reserve_direct_branch_witness :
    ring_buff_reserve (pull_buffer 100) 8 =
      .ret RING_BUFF_ERR_OK (some 0) { pull_buffer 100 with write := 8 } ∧
    ring_buff_reserve { pull_buffer 100 with write := 8 } 20 =
      .ret RING_BUFF_ERR_OK (some 8) { pull_buffer 100 with write := 28 } ∧
    region_disjoint (0, 8) (8, 20) = true :=
  ⟨(reserve_direct_branch (pull_buffer 100) 8 rfl (by decide) (by decide)).2.2.1 (by decide),
    by decide,
    ((reserve_direct_branch (pull_buffer 100) 8 rfl (by decide) (by decide)).2.2.2 20 0 8
      { pull_buffer 100 with write := 8 } { pull_buffer 100 with write := 28 }
      (by decide) (by decide) (by decide)).2.2⟩

/-! ### The message queue -/

/-- A load from the address just stored to. -/
theorem heap_store_same (h : Nat → Option msg_box) (a : Nat) (b : msg_box) :
    heap_store h a b a = some b := by
  simp [heap_store]

/-- A second store to an address replaces the first. -/
theorem heap_store_store (h : Nat → Option msg_box) (a : Nat) (b b2 : msg_box) :
    heap_store (heap_store h a b) a b2 = heap_store h a b2 := by
  funext x
  by_cases hx : x = a <;> simp [heap_store, hx]

/-- A chain does not see a store or a free at an address outside it. -/
theorem mq_chain_frame (h h2 : Nat → Option msg_box) (a : Nat)
    (hh : ∀ x, x ≠ a → h2 x = h x) :
    ∀ (cells : List (Nat × Nat × Nat)) (p : Option Nat),
      (∀ c ∈ cells, c.1 ≠ a) → mq_chain h p cells → mq_chain h2 p cells := by
  intro cells
  induction cells with
  | nil => intro p _ hc; exact hc
  | cons c cells ih =>
    intro p hne hc
    obtain ⟨a0, d, s⟩ := c
    obtain ⟨hp, b, hb, hd, hs, hrest⟩ := hc
    have h0 : a0 ≠ a := hne (a0, d, s) (List.mem_cons_self _ _)
    refine ⟨hp, b, ?_, hd, hs, ?_⟩
    · rw [hh a0 h0]; exact hb
    · exact ih b.next (fun c hcm => hne c (List.mem_cons_of_mem _ hcm)) hrest

/-- Linking a new box after the last box of a chain appends it to the chain. -/
theorem mq_chain_snoc (h : Nat → Option msg_box) (a d s : Nat) (nb : msg_box)
    (hnd : nb.data = d) (hns : nb.size = s) (hnn : nb.next = none) (hnb : h a = some nb) :
    ∀ (cells : List (Nat × Nat × Nat)) (p : Option Nat) (l : Nat),
      cells ≠ [] → (cells.map (fun c => c.1)).Nodup → (∀ c ∈ cells, c.1 ≠ a) →
      (cells.getLast?).map (fun c => c.1) = some l → mq_chain h p cells →
      ∃ bl, h l = some bl ∧
        mq_chain (heap_store h l { bl with next := some a }) p (cells ++ [(a, d, s)]) := by
  intro cells
  induction cells with
  | nil => intro p l hne; exact absurd rfl hne
  | cons c cells ih =>
    intro p l _ hnod hfresh hlast hc
    obtain ⟨a0, d0, s0⟩ := c
    obtain ⟨hp, b, hb, hd, hs, hrest⟩ := hc
    have h0 : a0 ≠ a := hfresh (a0, d0, s0) (List.mem_cons_self _ _)
    cases cells with
    | nil =>
      simp at hlast
      subst hlast
      have hbn : b.next = none := hrest
      refine ⟨b, hb, hp, { b with next := some a }, ?_, hd, hs, rfl, nb, ?_, hnd, hns, ?_⟩
      · simp [heap_store]
      · simp [heap_store, Ne.symm h0, hnb]
      · rw [hnn]; rfl
    | cons c1 cells =>
      have hnod2 : ((c1 :: cells).map (fun c => c.1)).Nodup := (List.nodup_cons.mp hnod).2
      have hnotin : a0 ∉ (c1 :: cells).map (fun c => c.1) := (List.nodup_cons.mp hnod).1
      have hlast2 : ((c1 :: cells).getLast?).map (fun c => c.1) = some l := by
        rw [List.getLast?_cons_cons] at hlast; exact hlast
      obtain ⟨bl, hbl, hch⟩ := ih b.next l (List.cons_ne_nil _ _) hnod2
        (fun c hcm => hfresh c (List.mem_cons_of_mem _ hcm)) hlast2 hrest
      have hl : l ∈ (c1 :: cells).map (fun c => c.1) := by
        cases hgl : (c1 :: cells).getLast? with
        | none => rw [hgl] at hlast2; simp at hlast2
        | some cl =>
          rw [hgl] at hlast2
          simp at hlast2
          subst hlast2
          exact List.mem_map_of_mem _ (List.mem_of_mem_getLast? hgl)
      have hne : a0 ≠ l := fun e => hnotin (e ▸ hl)
      refine ⟨bl, hbl, hp, b, ?_, hd, hs, hch⟩
      simp [heap_store, hne, hb]


/-- A put on a queue that represents `cells` returns OK and appends the new box. -/
theorem mq_put_step (q : msg_queue_obj) (cells : List (Nat × Nat × Nat)) (d s : Nat)
    (hinv : mq_inv q cells) (hroom : cells.length + 1 < UINT32_MOD) :
    ∃ q2, msg_queue_put true q d s = some (MSG_QUEUE_ERR_OK, q2) ∧
      mq_inv q2 (cells ++ [(q.brk, d, s)]) := by
  obtain ⟨hch, hlast, hcount, _, hnod, hbrk⟩ := hinv
  have hfresh : ∀ c ∈ cells, c.1 ≠ q.brk := fun c hc => Nat.ne_of_lt (hbrk c hc)
  have hnod2 : ((cells ++ [(q.brk, d, s)]).map (fun c => c.1)).Nodup := by
    rw [List.map_append, List.nodup_append]
    refine ⟨hnod, by simp, ?_⟩
    intro x hx hx2
    simp at hx2
    obtain ⟨c, hc, rfl⟩ := List.mem_map.mp hx
    exact hfresh c hc hx2
  have hbrk2 : ∀ c ∈ cells ++ [(q.brk, d, s)], c.1 < q.brk + 1 := by
    intro c hc
    rcases List.mem_append.mp hc with h | h
    · exact Nat.lt_succ_of_lt (hbrk c h)
    · simp at h; subst h; exact Nat.lt_succ_self _
  have hlen : (cells ++ [(q.brk, d, s)]).length = cells.length + 1 := by simp
  have hmod : (cells.length + 1) % UINT32_MOD = cells.length + 1 := Nat.mod_eq_of_lt hroom
  cases cells with
  | nil =>
    have hf : q.first = none := hch
    have hl : q.last = none := hlast
    have hc0 : q.count = 0 := hcount
    refine ⟨{ first := some q.brk, last := some q.brk, count := 1,
              heap := heap_store q.heap q.brk ⟨d, s, none, none⟩,
              brk := q.brk + 1 }, ?_, ?_⟩
    · simp [msg_queue_put, msg_box_create, heap_assign, hl, hc0, heap_store_same,
        heap_store_store, UINT32_MOD]
    · refine ⟨?_, ?_, ?_, hroom, hnod2, hbrk2⟩
      · exact ⟨rfl, _, heap_store_same _ _ _, rfl, rfl, rfl⟩
      · rfl
      · rfl
  | cons c0 cells =>
    cases hgl : (c0 :: cells).getLast? with
    | none => simp at hgl
    | some cl =>
      have hl : q.last = some cl.1 := by rw [hlast, hgl]; rfl
      have hc0 : q.count ≠ 0 := by rw [hcount]; simp
      have hch1 : mq_chain (heap_store q.heap q.brk
          { data := d, size := s, previous := some cl.1, next := none }) q.first (c0 :: cells) :=
        mq_chain_frame q.heap _ q.brk (fun x hx => by simp [heap_store, hx]) _ _ hfresh hch
      obtain ⟨bl, hbl, hsn⟩ := mq_chain_snoc _ q.brk d s
        { data := d, size := s, previous := some cl.1, next := none } rfl rfl rfl
        (heap_store_same _ _ _) (c0 :: cells) q.first cl.1 (List.cons_ne_nil _ _) hnod hfresh
        (by rw [hgl]; rfl) hch1
      refine ⟨{ first := q.first, last := some q.brk, count := (q.count + 1) % UINT32_MOD,
                heap := heap_store (heap_store q.heap q.brk ⟨d, s, some cl.1, none⟩) cl.1
                  { bl with next := some q.brk },
                brk := q.brk + 1 }, ?_, ?_⟩
      · simp [msg_queue_put, msg_box_create, heap_assign, hl, hc0, heap_store_same,
          heap_store_store, hbl]
      · refine ⟨hsn, ?_, ?_, ?_, hnod2, hbrk2⟩
        · show some q.brk = ((c0 :: cells ++ [(q.brk, d, s)]).getLast?).map (fun c => c.1)
          rw [List.getLast?_append]
          rfl
        · show (q.count + 1) % UINT32_MOD = _
          rw [hcount, hmod, hlen]
        · rw [hlen]; exact hroom

/-- A get on a queue that represents a non-empty list of boxes returns OK with the
data and size of the first box and removes it. -/
theorem mq_get_step (q : msg_queue_obj) (a d s : Nat) (cells : List (Nat × Nat × Nat))
    (hinv : mq_inv q ((a, d, s) :: cells)) :
    ∃ q2, msg_queue_get q = .ret MSG_QUEUE_ERR_OK d s q2 ∧ mq_inv q2 cells := by
  obtain ⟨hch, hlast, hcount, hlen, hnod, hbrk⟩ := hinv
  obtain ⟨hp, b, hb, hd, hs, hrest⟩ := hch
  have hnotin : a ∉ cells.map (fun c => c.1) := (List.nodup_cons.mp hnod).1
  have hnod2 : (cells.map (fun c => c.1)).Nodup := (List.nodup_cons.mp hnod).2
  have hne : ∀ c ∈ cells, c.1 ≠ a := fun c hc e => hnotin (e ▸ List.mem_map_of_mem _ hc)
  have hlen1 : cells.length + 1 < UINT32_MOD := hlen
  have hc0 : q.count ≠ 0 := by rw [hcount]; simp
  have hdec : (q.count + UINT32_MOD - 1) % UINT32_MOD = cells.length := by
    rw [hcount, List.length_cons]
    have e : cells.length + 1 + UINT32_MOD - 1 = cells.length + UINT32_MOD := by omega
    rw [e, Nat.add_mod_right]
    exact Nat.mod_eq_of_lt (by omega)
  have hch2 : mq_chain (heap_free q.heap a) b.next cells :=
    mq_chain_frame q.heap _ a (fun x hx => by simp [heap_free, hx]) _ _ hne hrest
  refine ⟨{ first := b.next, last := if cells.length = 0 then none else q.last,
            count := cells.length, heap := heap_free q.heap a, brk := q.brk }, ?_, ?_⟩
  · simp only [msg_queue_get, msg_queue_get_body, if_neg hc0, hp, hb, hdec, hd, hs]
    split_ifs <;> rfl
  · refine ⟨hch2, ?_, rfl, Nat.lt_of_succ_lt hlen1, hnod2,
      fun c hc => hbrk c (List.mem_cons_of_mem _ hc)⟩
    cases cells with
    | nil => rfl
    | cons c1 cells =>
      show (if (c1 :: cells).length = 0 then none else q.last) = _
      rw [if_neg (by simp), hlast, List.getLast?_cons_cons]

/-- A run that keeps to the discipline returns OK at every call; the gets return, in
order, the messages that were queued followed by the messages put. -/
theorem mq_run_fifo : ∀ (ops : List mq_op) (q : msg_queue_obj)
    (cells : List (Nat × Nat × Nat)),
    mq_inv q cells → mq_allowed cells.length ops = true →
    ∃ q2 outs cells2, mq_run q ops = some (q2, outs) ∧ mq_inv q2 cells2 ∧
      outs.length = mq_gets ops ∧
      cells.map (fun c => c.2) ++ mq_puts ops = outs ++ cells2.map (fun c => c.2) := by
  intro ops
  induction ops with
  | nil =>
    intro q cells hinv _
    exact ⟨q, [], cells, rfl, hinv, rfl, by simp [mq_puts]⟩
  | cons op ops ih =>
    intro q cells hinv hal
    cases op with
    | put d s =>
      simp only [mq_allowed, Bool.and_eq_true, decide_eq_true_eq] at hal
      obtain ⟨q1, hput, hinv1⟩ := mq_put_step q cells d s hinv hal.1
      obtain ⟨q2, outs, cells2, hrun, hinv2, hlen, hcat⟩ :=
        ih q1 (cells ++ [(q.brk, d, s)]) hinv1 (by rw [List.length_append]; exact hal.2)
      refine ⟨q2, outs, cells2, ?_, hinv2, hlen, ?_⟩
      · simp [mq_run, mq_step, hput, hrun]
      · rw [← hcat]; simp [mq_puts]
    | get =>
      simp only [mq_allowed, Bool.and_eq_true, decide_eq_true_eq] at hal
      cases cells with
      | nil => exact absurd hal.1 (by simp)
      | cons c cells =>
        obtain ⟨a, d, s⟩ := c
        obtain ⟨q1, hget, hinv1⟩ := mq_get_step q a d s cells hinv
        obtain ⟨q2, outs, cells2, hrun, hinv2, hlen, hcat⟩ :=
          ih q1 cells hinv1 (by simpa using hal.2)
        refine ⟨q2, (d, s) :: outs, cells2, ?_, hinv2, ?_, ?_⟩
        · simp [mq_run, mq_step, hget, hrun]
        · simp [mq_gets, hlen]
        · simp [mq_puts, ← hcat]

/-- The queue as created represents no box. -/
theorem mq_inv_empty : mq_inv empty_queue [] :=
  ⟨rfl, rfl, rfl, by decide, List.nodup_nil, fun _ h => absurd h (List.not_mem_nil _)⟩

/-- Claim C28: the message queue is FIFO. On the queue `msg_queue_create` makes, every
run of puts (whose box allocation succeeds) and gets that calls get only when the
queue is not empty, and never has `2^32` messages queued, returns
`MSG_QUEUE_ERR_OK` at every call; the gets return, in order, the data and size passed
to the first puts (the k-th get those of the k-th put), and at the end `count` is the
number of puts minus the number of gets. -/
theorem message_queue_is_fifo (ops : List mq_op) (hget : mq_allowed 0 ops = true) :
    msg_queue_create true true true = (MSG_QUEUE_ERR_OK, some empty_queue) ∧
    ∃ q, mq_run empty_queue ops = some (q, (mq_puts ops).take (mq_gets ops)) ∧
      q.count = (mq_puts ops).length - mq_gets ops := by
  refine ⟨rfl, ?_⟩
  obtain ⟨q, outs, cells, hrun, hinv, hlen, hcat⟩ :=
    mq_run_fifo ops empty_queue [] mq_inv_empty hget
  have hcat2 : mq_puts ops = outs ++ cells.map (fun c => c.2) := by simpa using hcat
  refine ⟨q, ?_, ?_⟩
  · rw [hrun, ← hlen, hcat2, List.take_left]
  · rw [hinv.2.2.1, hcat2, ← hlen]; simp

/-- The run `queue_run_example` keeps to the discipline: its two gets return
`(10, 1)` and `(20, 2)`, the messages of its first two puts, and one message stays. -/
theorem message_queue_is_fifo_witness :
    mq_allowed 0 queue_run_example = true ∧
    (msg_queue_create true true true = (MSG_QUEUE_ERR_OK, some empty_queue) ∧
     ∃ q, mq_run empty_queue queue_run_example = some (q, [(10, 1), (20, 2)]) ∧
       q.count = 3 - 2) :=
  ⟨by decide, message_queue_is_fifo queue_run_example (by decide)⟩

/-! ### Over-capacity commits, empty buffers, windows and the state field -/

/-- C31: when the capacity check of `ring_buff_commit` fires (the incremented
`acc_size`, taken modulo `2^32`, is above the size), the call returns
`RING_BUFF_ERR_GENERAL`, `acc_size` keeps the incremented value, no other field
changes (the read semaphore is not given) and the callback is not invoked, whatever
the callback is; and when the check does not fire, a commit that does not invoke the
callback returns `RING_BUFF_ERR_OK`, so a `RING_BUFF_ERR_GENERAL` without a callback
invocation is always the capacity check. -/
theorem commit_over_capacity_reports (notify : ring_buff_notify_t) (obj : ring_buff_obj)
    (buff : Int) (size : Nat) :
    (u32_add obj.acc_size size > obj.size →
      ring_buff_commit notify obj buff size =
        { err := RING_BUFF_ERR_GENERAL
          obj := { obj with acc_size := u32_add obj.acc_size size }
          window := none }) ∧
    (¬ u32_add obj.acc_size size > obj.size →
      (ring_buff_commit notify obj buff size).window = none →
      (ring_buff_commit notify obj buff size).err = RING_BUFF_ERR_OK) := by
  constructor
  · intro hover
    unfold ring_buff_commit
    dsimp only
    rw [if_pos hover]
  · intro hfit
    unfold ring_buff_commit ring_buff_handle_acc
    dsimp only
    rw [if_neg hfit]
    split_ifs <;> intro h <;> first | rfl | cases h

/-- Witness of C31: a commit of 12 bytes on a created 10-byte buffer. -/
theorem commit_over_capacity_reports_witness :
    ring_buff_commit no_notify (pull_buffer 10) 0 12 =
      { err := RING_BUFF_ERR_GENERAL
        obj := { pull_buffer 10 with acc_size := 12 }
        window := none } :=
  (commit_over_capacity_reports no_notify (pull_buffer 10) 0 12).1 (by decide)

/-- C32, as stated, fails: on a created 60-byte pull-mode buffer, after 30 bytes are
reserved, committed, read and freed (every call returning `RING_BUFF_ERR_OK`), the
buffer is active and empty with all three cursors at 30, and nothing is live; a
reservation of 50 bytes, which fits the capacity, is not granted: it waits at the
semaphore of the wrap loop. -/
theorem empty_buffer_reserve_waits :
    ring_buff_create true true (some ⟨true, 60, 0, false⟩) =
      (RING_BUFF_ERR_OK, some (pull_buffer 60)) ∧
    ((fifo_run (fifo_init (pull_buffer 60)) run_fill_and_drain).map fun s =>
        (s.obj.state, s.obj.read, s.obj.write, s.obj.acc, s.obj.acc_size, fifo_live s)) =
      some (RING_BUFF_STATE_ACTIVE, 30, 30, 30, 0, []) ∧
    ((fifo_run (fifo_init (pull_buffer 60)) run_fill_and_drain).map fun s =>
        ((ring_buff_reserve s.obj 50).waiting, (ring_buff_reserve s.obj 50).granted)) =
      some (some .wrap, none) :=
  ⟨by decide, rfl, by decide⟩

/-- C32, amended: on an active buffer whose read and write cursors coincide (so on
every empty one), a reservation of a size that fits the capacity is granted without
waiting when it fits after the write cursor (`write + size ≤ capacity`) or before the
read cursor (`size ≤ read`), with `RING_BUFF_ERR_OK`; in the one case the region is
at the write cursor, in the other at the start; for every other size that fits the
capacity it waits in the wrap loop. -/
theorem empty_buffer_reserve_granted (obj : ring_buff_obj) (size : Nat)
    (hst : obj.state = RING_BUFF_STATE_ACTIVE) (hempty : obj.read = obj.write)
    (hsize : size ≤ obj.size) :
    (obj.write + (size : Int) ≤ (obj.size : Int) →
      ring_buff_reserve obj size =
        .ret RING_BUFF_ERR_OK (some obj.write)
          { obj with write := obj.write + (size : Int) }) ∧
    (¬ obj.write + (size : Int) ≤ (obj.size : Int) → (size : Int) ≤ obj.read →
      ring_buff_reserve obj size =
        .ret RING_BUFF_ERR_OK (some 0)
          { obj with eod := some obj.write, write := (size : Int) }) ∧
    (¬ obj.write + (size : Int) ≤ (obj.size : Int) → ¬ (size : Int) ≤ obj.read →
      ring_buff_reserve obj size = .wait .wrap obj) := by
  have h1 : ¬ size > obj.size := Nat.not_lt.mpr hsize
  have h2 : ¬ ring_buff_check_state obj RING_BUFF_STATE_ACTIVE.val ≠ RING_BUFF_ERR_OK :=
    fun c => c ((check_state_active obj).2 hst)
  refine ⟨?_, ?_, ?_⟩
  · intro hfit
    have h3 : obj.write + (size : Int) ≤ (0 : Int) + (obj.size : Int) := by omega
    have h4 : ¬ (obj.write < obj.read ∧ obj.write + (size : Int) ≥ obj.read) := by omega
    unfold ring_buff_reserve ring_buff_reserve_direct
    rw [if_neg h1, if_neg h2, if_pos h3, if_neg h4]
  · intro hfit hrd
    have h3 : ¬ obj.write + (size : Int) ≤ (0 : Int) + (obj.size : Int) := by omega
    have h4 : ¬ (obj.read - (size : Int) < 0 ∨ obj.read > obj.write) := by omega
    unfold ring_buff_reserve ring_buff_reserve_wrap
    rw [if_neg h1, if_neg h2, if_neg h3, if_neg h4, zero_add]
  · intro hfit hrd
    have h3 : ¬ obj.write + (size : Int) ≤ (0 : Int) + (obj.size : Int) := by omega
    have h4 : obj.read - (size : Int) < 0 ∨ obj.read > obj.write := by omega
    unfold ring_buff_reserve ring_buff_reserve_wrap
    rw [if_neg h1, if_neg h2, if_neg h3, if_pos h4]

/-- Witness of the amended C32: the empty 60-byte buffer with its cursors at 30 grants
30 bytes at the write cursor. -/
theorem empty_buffer_reserve_granted_witness :
    ring_buff_reserve { pull_buffer 60 with read := 30, write := 30, acc := 30 } 30 =
      .ret RING_BUFF_ERR_OK (some 30)
        { pull_buffer 60 with read := 30, write := 60, acc := 30 } :=
  (empty_buffer_reserve_granted { pull_buffer 60 with read := 30, write := 30, acc := 30 } 30
    rfl rfl (by decide)).1 (by decide)

/-- Taking off again what a `uint32_t` addition added gives the first operand back. -/
theorem u32_sub_add_cancel (a s : Nat) (ha : a < UINT32_MOD) (hs : s < UINT32_MOD) :
    u32_sub (u32_add a s) s = a := by
  unfold u32_sub u32_add UINT32_MOD at *
  omega

/-- C33: whenever `ring_buff_commit` invokes the callback, the buffer is in push mode,
the window starts at the old accumulate cursor and its size is the `acc_size` from
before the commit; the object the callback is given (and whose result the commit
returns) has `acc_size` equal to the committed size and its accumulate cursor at the
start of the storage in the end-of-buffer case (`acc + acc_size` beyond the capacity
after the increment) and at the old cursor plus the delivered size otherwise, every
other field being as before; so the delivered size plus the new `acc_size` is the old
`acc_size` plus the committed size. -/
theorem commit_notify_window (notify : ring_buff_notify_t) (obj : ring_buff_obj)
    (buff : Int) (size : Nat) (w : Int × Nat)
    (ha : obj.acc_size < UINT32_MOD) (hs : size < UINT32_MOD)
    (hw : (ring_buff_commit notify obj buff size).window = some w) :
    (obj.accumulate ≠ 0 ∧ obj.notify_func = true) ∧
    w = (obj.acc, obj.acc_size) ∧
    ∃ o : ring_buff_obj,
      o = { obj with
              acc_size := size
              acc := if obj.acc + ((u32_add obj.acc_size size : Nat) : Int) > (obj.size : Int)
                     then 0 else obj.acc + (obj.acc_size : Int) } ∧
      ring_buff_commit notify obj buff size =
        { err := (notify o w.1 w.2).1, obj := (notify o w.1 w.2).2, window := some w } ∧
      w.2 + o.acc_size = obj.acc_size + size := by
  have hc := u32_sub_add_cancel obj.acc_size size ha hs
  by_cases h1 : u32_add obj.acc_size size > obj.size
  · have e : (ring_buff_commit notify obj buff size).window = none := by
      unfold ring_buff_commit
      dsimp only
      rw [if_pos h1]
    rw [e] at hw
    cases hw
  by_cases h2 : obj.accumulate ≠ 0 ∧ obj.notify_func = true
  swap
  · have e : (ring_buff_commit notify obj buff size).window = none := by
      unfold ring_buff_commit
      dsimp only
      rw [if_neg h1, if_neg h2]
    rw [e] at hw
    cases hw
  by_cases h3 : obj.acc + ((u32_add obj.acc_size size : Nat) : Int) > (obj.size : Int)
  · have h3b : obj.acc + ((u32_add obj.acc_size size : Nat) : Int) >
        (0 : Int) + (obj.size : Int) := by
      omega
    have e : ring_buff_commit notify obj buff size =
        { err := (notify { obj with acc_size := size, acc := 0 } obj.acc obj.acc_size).1
          obj := (notify { obj with acc_size := size, acc := 0 } obj.acc obj.acc_size).2
          window := some (obj.acc, obj.acc_size) } := by
      unfold ring_buff_commit ring_buff_handle_acc
      dsimp only
      rw [if_neg h1, if_pos h2, if_pos h3b, hc]
    rw [e] at hw
    cases hw
    refine ⟨h2, rfl, { obj with acc_size := size, acc := 0 }, ?_, e, rfl⟩
    rw [if_pos h3]
  · have h3b : ¬ obj.acc + ((u32_add obj.acc_size size : Nat) : Int) >
        (0 : Int) + (obj.size : Int) := by
      omega
    by_cases h4 : u32_add obj.acc_size size ≥ obj.accumulate
    · have e : ring_buff_commit notify obj buff size =
          { err := (notify { obj with acc_size := size, acc := obj.acc + (obj.acc_size : Int) }
                      obj.acc obj.acc_size).1
            obj := (notify { obj with acc_size := size, acc := obj.acc + (obj.acc_size : Int) }
                      obj.acc obj.acc_size).2
            window := some (obj.acc, obj.acc_size) } := by
        unfold ring_buff_commit ring_buff_handle_acc
        dsimp only
        rw [if_neg h1, if_pos h2, if_neg h3b, if_pos h4, hc]
      rw [e] at hw
      cases hw
      refine ⟨h2, rfl, { obj with acc_size := size, acc := obj.acc + (obj.acc_size : Int) },
        ?_, e, rfl⟩
      rw [if_neg h3]
    · have e : (ring_buff_commit notify obj buff size).window = none := by
        unfold ring_buff_commit ring_buff_handle_acc
        dsimp only
        rw [if_neg h1, if_pos h2, if_neg h3b, if_neg h4]
      rw [e] at hw
      cases hw

/-- Witness of C33: on the push-mode buffer `push_with_4` (threshold 5, 4 bytes
accumulated) a commit of 4 more bytes delivers the window `(0, 4)`. -/
theorem commit_notify_window_witness :
    (ring_buff_commit notify_free push_with_4 4 4).window = some (0, 4) ∧
    ((push_with_4.accumulate ≠ 0 ∧ push_with_4.notify_func = true) ∧
     ((0 : Int), 4) = (push_with_4.acc, push_with_4.acc_size)) :=
  ⟨by decide,
    (commit_notify_window notify_free push_with_4 4 4 (0, 4) (by decide) (by decide)
      (by decide)).1,
    (commit_notify_window notify_free push_with_4 4 4 (0, 4) (by decide) (by decide)
      (by decide)).2.1⟩

/-- The window a commit delivers is the accumulate cursor and the `acc_size` from
before the commit. -/
theorem commit_window_eq (notify : ring_buff_notify_t) (obj : ring_buff_obj)
    (buff : Int) (size : Nat) (w : Int × Nat)
    (ha : obj.acc_size < UINT32_MOD) (hs : size < UINT32_MOD)
    (hw : (ring_buff_commit notify obj buff size).window = some w) :
    w = (obj.acc, obj.acc_size) := by
  have hc := u32_sub_add_cancel obj.acc_size size ha hs
  unfold ring_buff_commit ring_buff_handle_acc at hw
  dsimp only at hw
  rw [hc] at hw
  split_ifs at hw
  all_goals (cases hw; rfl)

/-- C34, as stated, fails: on a created push-mode buffer (capacity 10, threshold 5)
the first reservation, of 6 bytes, is granted and its commit invokes the callback
with the window `(0, 0)`, of size 0, and returns `RING_BUFF_ERR_OK`. -/
theorem first_commit_notifies_empty_window :
    ring_buff_create true true (some ⟨true, 10, 5, true⟩) =
      (RING_BUFF_ERR_OK, some (push_buffer 10 5)) ∧
    ((push_run (push_init (push_buffer 10 5)) run_push_first_pair).map fun s =>
        (s.regions, s.windows, s.errs)) =
      some ([(0, 6)], [(0, 0)], [RING_BUFF_ERR_OK]) :=
  ⟨by decide, by decide⟩

/-- C34, amended: a flush that invokes the callback passes a size above 0; a commit
that invokes it passes the `acc_size` from before the call, so a size above 0 when
something was accumulated before the call, and the size 0 when nothing was. -/
theorem notify_window_not_empty (notify : ring_buff_notify_t) (obj : ring_buff_obj) :
    (∀ w : Int × Nat, (ring_buff_flush notify obj).window = some w → 0 < w.2) ∧
    (∀ (buff : Int) (size : Nat) (w : Int × Nat),
      obj.acc_size < UINT32_MOD → size < UINT32_MOD →
      (ring_buff_commit notify obj buff size).window = some w →
      w.2 = obj.acc_size ∧ (0 < obj.acc_size → 0 < w.2)) := by
  constructor
  · intro w hw
    unfold ring_buff_flush at hw
    dsimp only at hw
    split_ifs at hw with h1 h2
    cases hw
    exact Nat.pos_of_ne_zero h2.1
  · intro buff size w ha hs hw
    have e := commit_window_eq notify obj buff size w ha hs hw
    subst e
    exact ⟨rfl, fun h => h⟩

/-- Witness of the amended C34: with 4 bytes accumulated, the commit of 4 more bytes
delivers the window `(0, 4)`, of size 4. -/
theorem notify_window_not_empty_witness :
    (ring_buff_commit notify_free push_with_4 4 4).window = some (0, 4) ∧
    (((0 : Int), 4).2 = push_with_4.acc_size ∧
     (0 < push_with_4.acc_size → 0 < ((0 : Int), 4).2)) :=
  ⟨by decide,
    (notify_window_not_empty notify_free push_with_4).2 4 4 (0, 4) (by decide) (by decide)
      (by decide)⟩

/-- C35, evaluated: on a created push-mode buffer (capacity 10, threshold 5, the
callback `notify_free`) the run `run_push_four_pairs` has every reserve granted at
once and every commit right after its reserve. After the third pair the read and the
write cursor are both at 6 with the 6 bytes of the wrapped third chunk not yet
delivered; the fourth reservation is granted over them, its commit returns
`RING_BUFF_ERR_GENERAL`, and the state reached has `acc + acc_size = 12`, which is
neither the write cursor (6) nor within the capacity (10). -/
theorem push_window_leaves_write_cursor :
    ring_buff_create true true (some ⟨true, 10, 5, true⟩) =
      (RING_BUFF_ERR_OK, some (push_buffer 10 5)) ∧
    ((push_run (push_init (push_buffer 10 5)) (run_push_four_pairs.take 6)).map fun s =>
        (s.regions, s.errs, s.obj.read, s.obj.write, s.obj.acc, s.obj.acc_size)) =
      some ([(0, 6), (6, 0), (0, 6)],
        [RING_BUFF_ERR_OK, RING_BUFF_ERR_OK, RING_BUFF_ERR_OK], 6, 6, 0, 6) ∧
    ((push_run (push_init (push_buffer 10 5)) run_push_four_pairs).map fun s =>
        (s.regions, s.errs, s.obj.write, s.obj.acc, s.obj.acc_size)) =
      some ([(0, 6), (6, 0), (0, 6), (0, 6)],
        [RING_BUFF_ERR_OK, RING_BUFF_ERR_OK, RING_BUFF_ERR_OK, RING_BUFF_ERR_GENERAL],
        6, 0, 12) ∧
    ((push_run (push_init (push_buffer 10 5)) run_push_four_pairs).map fun s =>
        (decide (s.obj.acc + (s.obj.acc_size : Int) = s.obj.write),
         decide (s.obj.acc + (s.obj.acc_size : Int) ≤ (s.obj.size : Int)))) =
      some (false, false) :=
  ⟨by decide, rfl, rfl, by decide⟩

/-- C37, evaluated: on the stopped buffer `stopped_on_marker_small` (capacity 10, 4
bytes accumulated, reached by calls that all returned `RING_BUFF_ERR_OK`) a read of 6
bytes, a size within the capacity, returns `RING_BUFF_ERR_OK` and reports 6 bytes,
more than the 4 accumulated, and `acc_size` becomes `4 - 6` modulo `2^32`. -/
theorem read_reports_more_than_accumulated :
    ring_buff_create true true (some ⟨true, 10, 0, false⟩) =
      (RING_BUFF_ERR_OK, some (pull_buffer 10)) ∧
    (stopped_on_marker_small.map fun o => (o.size, o.state, o.acc_size, o.acc, o.eod)) =
      some (10, RING_BUFF_STATE_STOPPED, 4, 8, some 8) ∧
    (stopped_on_marker_small.map fun o => (ring_buff_read o 6).status) =
      some (some (RING_BUFF_ERR_OK, some 0, some 6)) ∧
    (stopped_on_marker_small.map fun o =>
        (o.acc_size, (ring_buff_read o 6).obj.acc_size)) = some (4, 4294967294) :=
  ⟨by decide, by decide, by decide, by decide⟩

/-- C38, evaluated: on the queue `msg_queue_create` makes, `msg_queue_put_urgent`
returns `MSG_QUEUE_ERR_OK` and leaves `count` 1 with one box chained from `first` but
`last` NULL; the `msg_queue_put` after it returns `MSG_QUEUE_ERR_OK` and leaves
`count` 2 with still one box chained from `first`, `last` being a box outside the
chain; the first get returns the urgent message and leaves `count` 1 with `first`
NULL; the second get, made with `count` above 0, dereferences NULL. -/
theorem urgent_put_breaks_queue :
    msg_queue_create true true true = (MSG_QUEUE_ERR_OK, some empty_queue) ∧
    mq_shape (mq_trace empty_queue (run_urgent_first.take 1)).2 = (1, some 0, none, [0]) ∧
    mq_shape (mq_trace empty_queue (run_urgent_first.take 2)).2 =
      (2, some 0, some 1, [0]) ∧
    mq_shape (mq_trace empty_queue (run_urgent_first.take 3)).2 = (1, none, some 1, []) ∧
    (mq_trace empty_queue run_urgent_first).1 =
      [.returned MSG_QUEUE_ERR_OK none, .returned MSG_QUEUE_ERR_OK none,
       .returned MSG_QUEUE_ERR_OK (some (7, 1)), .faults] :=
  ⟨rfl, by decide, by decide, by decide, by decide⟩

/-- C36: `ring_buff_free` and `ring_buff_commit` on a buffer whose state field is
replaced by any state `st` return the same code and make the same field updates as on
the buffer itself. For free, and for a commit that does not invoke the callback, this
holds as it is, and a commit invokes the callback on the one exactly when it does on
the other, with the same window; for a commit that invokes the callback it holds for
every callback that does not look at the state (as `notify_free`). In particular a
commit in pull mode on a canceled buffer, within the capacity, adds the size to
`acc_size` and returns `RING_BUFF_ERR_OK`. -/
theorem commit_free_ignore_state (notify : ring_buff_notify_t) (obj : ring_buff_obj)
    (buff : Int) (size : Nat) (st : ring_buff_state) :
    ring_buff_free { obj with state := st } buff size =
      ((ring_buff_free obj buff size).1,
        { (ring_buff_free obj buff size).2 with state := st }) ∧
    (ring_buff_commit notify { obj with state := st } buff size).window =
      (ring_buff_commit notify obj buff size).window ∧
    ((ring_buff_commit notify obj buff size).window = none →
      ring_buff_commit notify { obj with state := st } buff size =
        { err := (ring_buff_commit notify obj buff size).err
          obj := { (ring_buff_commit notify obj buff size).obj with state := st }
          window := none }) ∧
    ((∀ (o : ring_buff_obj) (b : Int) (n : Nat) (s : ring_buff_state),
        notify { o with state := s } b n =
          ((notify o b n).1, { (notify o b n).2 with state := s })) →
      ring_buff_commit notify { obj with state := st } buff size =
        { err := (ring_buff_commit notify obj buff size).err
          obj := { (ring_buff_commit notify obj buff size).obj with state := st }
          window := (ring_buff_commit notify obj buff size).window }) ∧
    (obj.accumulate = 0 ∨ obj.notify_func = false →
      u32_add obj.acc_size size ≤ obj.size →
      (ring_buff_commit notify { obj with state := RING_BUFF_STATE_CANCELED } buff size).err =
        RING_BUFF_ERR_OK ∧
      (ring_buff_commit notify { obj with state := RING_BUFF_STATE_CANCELED } buff
        size).obj.acc_size = u32_add obj.acc_size size) := by
  refine ⟨rfl, ?_, ?_, ?_, ?_⟩
  · unfold ring_buff_commit ring_buff_handle_acc
    dsimp only
    split_ifs <;> rfl
  · unfold ring_buff_commit ring_buff_handle_acc
    dsimp only
    split_ifs <;> intro h <;> first | rfl | cases h
  · intro hcb
    unfold ring_buff_commit ring_buff_handle_acc
    dsimp only
    split_ifs
    · rfl
    · have e := hcb { obj with acc_size := size, acc := 0 } obj.acc
        (u32_sub (u32_add obj.acc_size size) size) st
      dsimp only at e
      rw [e]
    · have e := hcb
        { obj with acc_size := size
                   acc := obj.acc + ((u32_sub (u32_add obj.acc_size size) size : Nat) : Int) }
        obj.acc (u32_sub (u32_add obj.acc_size size) size) st
      dsimp only at e
      rw [e]
    · rfl
    · rfl
  · intro hpull hfit
    have h1 : ¬ u32_add obj.acc_size size > obj.size := Nat.not_lt.mpr hfit
    have h2 : ¬ (obj.accumulate ≠ 0 ∧ obj.notify_func = true) := by
      rintro ⟨ha, hn⟩
      rcases hpull with h | h
      · exact ha h
      · rw [hn] at h
        cases h
    unfold ring_buff_commit
    dsimp only
    rw [if_neg h1, if_neg h2]
    exact ⟨rfl, rfl⟩

/-- Witness of C36: a commit of 4 bytes on the canceled 1024-byte buffer
`canceled_with_4` returns `RING_BUFF_ERR_OK` and leaves 8 bytes accumulated. -/
theorem commit_free_ignore_state_witness :
    (canceled_with_4.state, canceled_with_4.accumulate, canceled_with_4.acc_size) =
      (RING_BUFF_STATE_CANCELED, 0, 4) ∧
    ((ring_buff_commit no_notify canceled_with_4 4 4).err = RING_BUFF_ERR_OK ∧
     (ring_buff_commit no_notify canceled_with_4 4 4).obj.acc_size = 8) :=
  ⟨by decide,
    (commit_free_ignore_state no_notify canceled_with_4 4 4 RING_BUFF_STATE_ACTIVE).2.2.2.2
      (Or.inl rfl) (by decide)⟩

end RingBuff
